import Mathlib

/-!
Verification of the peer-to-peer routing core (routing graph engine, network
state / message router) and of the diagnostic censorship tool (plague).

The development is a shallow embedding of the Rust sources:
  chain/network/src/routing/graph/mod.rs
  chain/network/src/peer_manager/network_state.rs
  chain/plague/src/lib.rs (with db.rs, json_helper.rs)
Machine integers are modelled as Nat (nonces) and Int (clock readings);
hash maps are modelled as association lists with map semantics (a lookup
returns the value of the unique entry for a key; insertion overwrites);
fallible or panicking code returns Option.  Metrics and logging are omitted.
Components of the repository whose code is not under src (the bfs module,
the edge store, the route-back cache, the wire protocol types) are modelled
from the specification; their doc comments say so explicitly.
-/

/-! Association list helpers with map semantics. -/

/-- lookupA returns the value stored under key k, if any. -/
def lookupA {α β : Type} [DecidableEq α] (l : List (α × β)) (k : α) : Option β :=
  (l.find? (fun kv => kv.1 = k)).map (fun kv => kv.2)

/-- eraseA removes every entry stored under key k. -/
def eraseA {α β : Type} [DecidableEq α] (l : List (α × β)) (k : α) : List (α × β) :=
  l.filter (fun kv => kv.1 ≠ k)

/-- insertA stores v under key k, overwriting any previous entry. -/
def insertA {α β : Type} [DecidableEq α] (l : List (α × β)) (k : α) (v : β) : List (α × β) :=
  eraseA l k ++ [(k, v)]

/-! Basic data model (spec section 3, network_protocol types are not under
src and are modelled from the spec). -/

abbrev PeerId := Nat

/-- EdgeKey is the canonical pair (a, b) with a < b (spec section 3). -/
abbrev EdgeKey := PeerId × PeerId

/-- Clock bundles the two clock readings used by the engine: now_utc (Utc)
and now (Instant), both modelled as Int. -/
structure Clock where
  utc : Int
  inst : Int
deriving DecidableEq

/-- EdgeState of an edge: an active connection or a removed one. -/
inductive EdgeState where
  | Active
  | Removed
deriving DecidableEq

/-- Sig models a signature over (a, b, nonce) symbolically: a signature is
valid iff its payload equals the signed triple (spec section 3: both
signatures cover (a,b,nonce)). -/
abbrev Sig := PeerId × PeerId × Nat

/-- Edge is modelled from the spec (section 3): the tuple
(a, b, nonce, sigs, created_at) with a < b canonical. -/
structure Edge where
  peer0 : PeerId
  peer1 : PeerId
  nonce : Nat
  sig0 : Sig
  sig1 : Sig
  createdAt : Int
deriving DecidableEq

/-- Edge.key returns the canonical key (a, b). -/
def Edge.key (e : Edge) : EdgeKey := (e.peer0, e.peer1)

/-- Edge.edge_type is modelled from the spec (section 3): odd nonces mean
Active, even mean Removed. -/
def Edge.edge_type (e : Edge) : EdgeState :=
  if e.nonce % 2 = 1 then EdgeState.Active else EdgeState.Removed

/-- Edge.is_edge_older_than compares the edge creation time with a Utc bound. -/
def Edge.is_edge_older_than (e : Edge) (t : Int) : Bool := e.createdAt < t

/-- Edge.other returns the endpoint different from p, when p is an endpoint. -/
def Edge.other (e : Edge) (p : PeerId) : Option PeerId :=
  if e.peer0 = p then some e.peer1 else if e.peer1 = p then some e.peer0 else none

/-- Edge.verify checks both signatures against the signed triple. -/
def Edge.verify (e : Edge) : Bool :=
  (e.sig0 == (e.peer0, e.peer1, e.nonce)) && (e.sig1 == (e.peer0, e.peer1, e.nonce))

/-- Edge.deduplicate is modelled from the spec (section 4.3): deduplicates by
key, keeping the highest nonce per key. -/
def Edge.deduplicate (edges : List Edge) : List Edge :=
  (edges.foldl (fun acc e =>
    match lookupA acc e.key with
    | some e0 => if e0.nonce < e.nonce then insertA acc e.key e else acc
    | none => insertA acc e.key e) []).map (fun kv => kv.2)

/-! BFS graph.  The bfs module is not under src; it is modelled from the
spec (section 4.1). -/

/-- BfsGraph is modelled from the spec (section 4.1): an undirected
adjacency structure (edges kept as canonical pairs, in insertion order)
plus the id of this node. -/
structure BfsGraph where
  nodeId : PeerId
  adj : List EdgeKey
deriving DecidableEq

/-- BfsGraph.add_edge inserts an undirected edge, if not already present. -/
def BfsGraph.add_edge (g : BfsGraph) (a b : PeerId) : BfsGraph :=
  if (a, b) ∈ g.adj then g else { g with adj := g.adj ++ [(a, b)] }

/-- BfsGraph.remove_edge deletes an undirected edge. -/
def BfsGraph.remove_edge (g : BfsGraph) (a b : PeerId) : BfsGraph :=
  { g with adj := g.adj.filter (fun kv => kv ≠ (a, b)) }

/-- neighborsOf lists the neighbours of x in the adjacency structure. -/
def neighborsOf (adj : List EdgeKey) (x : PeerId) : List PeerId :=
  adj.filterMap (fun pq =>
    if pq.1 = x then some pq.2 else if pq.2 = x then some pq.1 else none)

/-- bfsAux expands the BFS frontier level by level, recording the distance of
each vertex on first discovery. -/
def bfsAux (adj : List EdgeKey) :
    Nat → List (PeerId × Nat) → List PeerId → Nat → List (PeerId × Nat)
  | 0, dist, _, _ => dist
  | Nat.succ fuel, dist, frontier, d =>
    let next := ((frontier.map (neighborsOf adj)).flatten.filter
      (fun p => (lookupA dist p).isNone)).dedup
    match next with
    | [] => dist
    | _ => bfsAux adj fuel (dist ++ next.map (fun p => (p, d))) next (d + 1)

/-- bfsFrom computes the distance table of a single-source BFS. -/
def bfsFrom (adj : List EdgeKey) (src : PeerId) : List (PeerId × Nat) :=
  bfsAux adj (2 * adj.length + 1) [(src, 0)] [src] 1

/-- BfsGraph.calculate_distance is modelled from the spec (section 4.1):
for each target t at distance d from this node, the next hops are the
directly connected neighbours n of this node with dist(n, t) = d - 1;
next hops via unreliable peers are used only when no reliable neighbour
achieves the same distance.  This node is never a target. -/
def BfsGraph.calculate_distance (g : BfsGraph) (unreliable : List PeerId) :
    List (PeerId × List PeerId) :=
  let dist := bfsFrom g.adj g.nodeId
  let selfNbrs := (neighborsOf g.adj g.nodeId).dedup
  dist.filterMap (fun td =>
    if td.1 = g.nodeId then none else
    let cand := selfNbrs.filter (fun n => lookupA (bfsFrom g.adj n) td.1 = some (td.2 - 1))
    let rel := cand.filter (fun n => decide (n ∉ unreliable))
    some (td.1, if rel.isEmpty then cand else rel))

/-! Edge store.  The store module is not under src; it is modelled from the
spec (sections 4.2 and 6): component_edges[component_id] and
peer_component[peer_id] keyspaces with a monotonic component counter. -/

/-- Store is modelled from the spec (section 4.2): a component-based archive
of pruned edges. -/
structure Store where
  nextComponentId : Nat
  componentEdges : List (Nat × List Edge)
  peerComponent : List (PeerId × Nat)
deriving DecidableEq

/-- Store.push_component assigns a fresh component id, writes the edges under
it, and maps every peer of the set to it (overwriting prior mappings). -/
def Store.push_component (s : Store) (peers : List PeerId) (edges : List Edge) : Store :=
  let c := s.nextComponentId
  { nextComponentId := c + 1
    componentEdges := insertA s.componentEdges c edges
    peerComponent := peers.foldl (fun m p => insertA m p c) s.peerComponent }

/-- Store.pop_component reads the component of a peer, returns its edge
bundle, and deletes both the bundle and the mapping of that peer (mappings
of other peers of the component dangle, per spec section 4.2). -/
def Store.pop_component (s : Store) (p : PeerId) : List Edge × Store :=
  match lookupA s.peerComponent p with
  | none => ([], s)
  | some c =>
    ((lookupA s.componentEdges c).getD [],
      { s with componentEdges := eraseA s.componentEdges c
               peerComponent := eraseA s.peerComponent p })

/-! Routing graph engine: RoutingInner (graph/mod.rs). -/

/-- GraphConfig mirrors GraphConfig in graph/mod.rs. -/
structure GraphConfig where
  node_id : PeerId
  prune_unreachable_peers_after : Int
  prune_edges_after : Option Int
deriving DecidableEq

/-- GraphSnapshot mirrors GraphSnapshot in graph/mod.rs. -/
structure GraphSnapshot where
  edges : List (EdgeKey × Edge)
  local_edges : List (PeerId × Edge)
  next_hops : List (PeerId × List PeerId)
deriving DecidableEq

/-- RoutingInner mirrors Inner in graph/mod.rs. -/
structure RoutingInner where
  config : GraphConfig
  graph : BfsGraph
  edges : List (EdgeKey × Edge)
  peer_reachable_at : List (PeerId × Int)
  store : Store
  last_time_peers_pruned : Option Int
deriving DecidableEq

/-- hasEdge mirrors the free function has in graph/mod.rs: the set contains
an edge at least as new as the argument. -/
def hasEdge (set : List (EdgeKey × Edge)) (edge : Edge) : Bool :=
  match lookupA set edge.key with
  | some x => edge.nonce ≤ x.nonce
  | none => false

/-- insertEdgeRaw applies the edge state to the BFS graph and stores the edge,
mirroring the tail of Inner::update_edge. -/
def RoutingInner.insertEdgeRaw (i : RoutingInner) (edge : Edge) : RoutingInner :=
  let key := edge.key
  let g := match edge.edge_type with
    | EdgeState.Active => i.graph.add_edge key.1 key.2
    | EdgeState.Removed => i.graph.remove_edge key.1 key.2
  { i with graph := g, edges := insertA i.edges key edge }

/-- RoutingInner.update_edge mirrors Inner::update_edge: reject when a stored edge
with the same key has a nonce at least as large, or when the edge falls out
of the prune_edges_after window; otherwise store the edge. -/
def RoutingInner.update_edge (i : RoutingInner) (now : Int) (edge : Edge) : RoutingInner × Bool :=
  if hasEdge i.edges edge then (i, false)
  else if (match i.config.prune_edges_after with
    | some d => edge.is_edge_older_than (now - d)
    | none => false) then (i, false)
  else (i.insertEdgeRaw edge, true)

/-- RoutingInner.remove_edge mirrors Inner::remove_edge: remove an edge by key from
the edge map and, when present, from the BFS graph. -/
def RoutingInner.remove_edge (i : RoutingInner) (key : EdgeKey) : RoutingInner :=
  match lookupA i.edges key with
  | some _ => { i with edges := eraseA i.edges key, graph := i.graph.remove_edge key.1 key.2 }
  | none => i

/-- edgeIncident tells whether either endpoint of a key is in the peer list. -/
def edgeIncident (key : EdgeKey) (peers : List PeerId) : Bool :=
  key.1 ∈ peers || key.2 ∈ peers

/-- RoutingInner.remove_adjacent_edges mirrors Inner::remove_adjacent_edges: remove
and collect every stored edge with an endpoint in the peer set. -/
def RoutingInner.remove_adjacent_edges (i : RoutingInner) (peers : List PeerId) : RoutingInner × List Edge :=
  i.edges.foldl (fun acc ke =>
    if edgeIncident ke.1 peers then (acc.1.remove_edge ke.1, acc.2 ++ [ke.2]) else acc)
    (i, [])

/-- RoutingInner.prune_old_edges mirrors Inner::prune_old_edges. -/
def RoutingInner.prune_old_edges (i : RoutingInner) (cutoff : Int) : RoutingInner :=
  i.edges.foldl (fun acc ke =>
    if ke.2.is_edge_older_than cutoff then acc.remove_edge ke.1 else acc) i

/-- RoutingInner.load_component mirrors Inner::load_component: when the peer is
neither this node nor currently reachable, pop its archived component and
re-apply the edges through update_edge. -/
def RoutingInner.load_component (i : RoutingInner) (now : Int) (peer_id : PeerId) : RoutingInner :=
  if peer_id = i.config.node_id || (lookupA i.peer_reachable_at peer_id).isSome then i
  else
    let p := i.store.pop_component peer_id
    p.1.foldl (fun j e => (j.update_edge now e).1) { i with store := p.2 }

/-- staleKeyPeers mirrors the peer-collection loop of
Inner::prune_unreachable_peers: every endpoint of a stored edge whose
peer_reachable_at entry is absent or older than the bound. -/
def staleKeyPeers (i : RoutingInner) (unreachable_since : Int) : List PeerId :=
  ((i.edges.map (fun ke => [ke.1.1, ke.1.2])).flatten.filter (fun p =>
    match lookupA i.peer_reachable_at p with
    | some t => t < unreachable_since
    | none => true)).dedup

/-- RoutingInner.prune_unreachable_peers mirrors Inner::prune_unreachable_peers:
collect stale edge-endpoint peers; when the set is non-empty, drop them from
peer_reachable_at, remove their incident edges, and archive both. -/
def RoutingInner.prune_unreachable_peers (i : RoutingInner) (unreachable_since : Int) : RoutingInner :=
  let peers := staleKeyPeers i unreachable_since
  if peers.isEmpty then i
  else
    let i1 := { i with peer_reachable_at := peers.foldl eraseA i.peer_reachable_at }
    let p := i1.remove_adjacent_edges peers
    { p.1 with store := p.1.store.push_component peers p.2 }

/-- loadPhase mirrors the component-loading loop at the top of Inner::update. -/
def RoutingInner.loadPhase (i : RoutingInner) (now : Int) (edges : List Edge) : RoutingInner :=
  edges.foldl (fun j e => (j.load_component now e.key.1).load_component now e.key.2) i

/-- mergePhase mirrors edges.retain(update_edge) in Inner::update, returning
the state together with the retained (accepted) edges in order. -/
def RoutingInner.mergePhase (i : RoutingInner) (now : Int) (edges : List Edge) : RoutingInner × List Edge :=
  edges.foldl (fun acc e =>
    let p := acc.1.update_edge now e
    (p.1, if p.2 then acc.2 ++ [e] else acc.2)) (i, [])

/-- throttleCond mirrors the last_time_peers_pruned guard in Inner::update. -/
def throttleCond (last : Option Int) (now : Int) (u : Int) : Bool :=
  match last with
  | none => true
  | some t => t < now - u / 2

/-- prePrune is the front part of Inner::update, before the throttled
unreachability pruning: load components, merge incoming edges, prune
expired edges, recompute next hops, touch reachability.  It returns the
intermediate state, the accepted edges and the next-hop table. -/
def RoutingInner.prePrune (i : RoutingInner) (clock : Clock) (edges : List Edge)
    (unreliable : List PeerId) :
    RoutingInner × List Edge × List (PeerId × List PeerId) :=
  let now := clock.utc
  let i1 := i.loadPhase now edges
  let p := i1.mergePhase now edges
  let i3 := match p.1.config.prune_edges_after with
    | some d => p.1.prune_old_edges (now - d)
    | none => p.1
  let next_hops := i3.graph.calculate_distance unreliable
  let reach1 := insertA i3.peer_reachable_at i3.config.node_id clock.inst
  let reach2 := next_hops.foldl (fun m td => insertA m td.1 clock.inst) reach1
  ({ i3 with peer_reachable_at := reach2 }, p.2, next_hops)

/-- RoutingInner.update mirrors Inner::update: run the pre-prune pipeline,
then prune unreachable peers behind the last_time_peers_pruned throttle, and
build the snapshot.  It returns the accepted edges and the snapshot,
together with the updated state. -/
def RoutingInner.update (i : RoutingInner) (clock : Clock) (edges : List Edge)
    (unreliable : List PeerId) : (List Edge × GraphSnapshot) × RoutingInner :=
  let pp := i.prePrune clock edges unreliable
  let i4 := pp.1
  let i5 :=
    if throttleCond i4.last_time_peers_pruned clock.inst
        i4.config.prune_unreachable_peers_after then
      { i4.prune_unreachable_peers (clock.inst - i4.config.prune_unreachable_peers_after) with
        last_time_peers_pruned := some clock.inst }
    else i4
  let local_edges := i5.edges.filterMap (fun ke =>
    (ke.2.other i5.config.node_id).map (fun other => (other, ke.2)))
  ((pp.2.1, { edges := i5.edges, local_edges := local_edges, next_hops := pp.2.2 }), i5)

/-- graphVerify mirrors Graph::verify: deduplicate, strip edges already
present in the snapshot at an equal or higher nonce, then keep exactly the
edges whose signatures verify, reporting whether all of them verified. -/
def graphVerify (old : List (EdgeKey × Edge)) (edges : List Edge) : List Edge × Bool :=
  let es := (Edge.deduplicate edges).filter (fun x => !(hasEdge old x))
  (es.filter Edge.verify, es.all Edge.verify)

/-- initialInner mirrors Graph::new: empty maps, no prune timestamp. -/
def initialInner (config : GraphConfig) (store : Store) : RoutingInner :=
  { config := config
    graph := { nodeId := config.node_id, adj := [] }
    edges := []
    peer_reachable_at := []
    store := store
    last_time_peers_pruned := none }

/-- emptyStore is the empty archive. -/
def emptyStore : Store :=
  { nextComponentId := 0, componentEdges := [], peerComponent := [] }

/-! Network state and message router (network_state.rs).  Wire types
(network_protocol), the route-back cache, the routing table view, the
accounts-data cache, the connection pools and the client interface are not
under src; they are modelled from the spec (sections 3, 4.4, 4.5, 4.6, 6).
Message payloads carried opaquely are modelled as Nat. -/

abbrev AccountId := String

abbrev CryptoHash := Nat

abbrev ReasonForBan := Nat

/-- Tier of a connection: the TIER1 validator mesh or TIER2 gossip. -/
inductive Tier where
  | T1
  | T2
deriving DecidableEq

/-- PeerIdOrHash is the target of a routed message: an explicit peer or an
opaque route-back hash. -/
inductive PeerIdOrHash where
  | peerId (p : PeerId)
  | hash (h : CryptoHash)
deriving DecidableEq

/-- RoutedMessageBody is modelled from the spec (section 6 wire contract):
the routed-body variants dispatched by receive_routed_message.  The three
PartialEncodedChunk variants are abbreviated chunkRequest, chunkResponse,
versionedChunk, chunkForward. -/
inductive RoutedMessageBody where
  | txStatusRequest (account_id : AccountId) (tx_hash : Nat)
  | txStatusResponse (tx_result : Nat)
  | stateRequestHeader (shard_id : Nat) (sync_hash : Nat)
  | stateRequestPart (shard_id : Nat) (sync_hash : Nat) (part_id : Nat)
  | versionedStateResponse (info : Nat)
  | blockApproval (approval : Nat)
  | forwardTx (tx : Nat)
  | chunkRequest (request : Nat)
  | chunkResponse (response : Nat)
  | versionedChunk (chunk : Nat)
  | chunkForward (fwd : Nat)
  | receiptOutcomeRequest (r : Nat)
  | ping (nonce : Nat) (source : PeerId)
  | pong (nonce : Nat) (source : PeerId)
  | otherBody (tag : Nat)
deriving DecidableEq

/-- RoutedMessageBody.is_important is modelled from the spec (section 4.7):
the bodies that are re-sent three times on TIER2 (approvals and chunks). -/
def RoutedMessageBody.is_important : RoutedMessageBody → Bool
  | RoutedMessageBody.blockApproval _ => true
  | RoutedMessageBody.versionedChunk _ => true
  | _ => false

/-- tierT1AllowedRouted is modelled from the spec (section 4.7): the bodies
eligible for the TIER1 proxy path. -/
def tierT1AllowedRouted : RoutedMessageBody → Bool
  | RoutedMessageBody.blockApproval _ => true
  | RoutedMessageBody.versionedChunk _ => true
  | _ => false

/-- expectResponse is modelled from the spec (section 4.7): the request-type
bodies for which a route-back entry is recorded before a TIER2 send. -/
def expectResponse : RoutedMessageBody → Bool
  | RoutedMessageBody.txStatusRequest _ _ => true
  | RoutedMessageBody.stateRequestHeader _ _ => true
  | RoutedMessageBody.stateRequestPart _ _ _ => true
  | RoutedMessageBody.chunkRequest _ => true
  | RoutedMessageBody.ping _ _ => true
  | _ => false

/-- RoutedMessageV2 mirrors the signed routed message of the wire contract
(spec section 6): target, author, body, ttl, created_at, plus the key that
produced the signature (signatures are modelled symbolically). -/
structure RoutedMessageV2 where
  target : PeerIdOrHash
  author : PeerId
  body : RoutedMessageBody
  ttl : Nat
  createdAt : Option Int
  signedWith : Nat
deriving DecidableEq

/-- RawRoutedMessage mirrors RawRoutedMessage: an unsigned target and body. -/
structure RawRoutedMessage where
  target : PeerIdOrHash
  body : RoutedMessageBody
deriving DecidableEq

/-- encodeInt injects an Int into Nat for hashing. -/
def encodeInt (t : Int) : Nat := if t < 0 then 2 * t.natAbs + 1 else 2 * t.natAbs

/-- encodeString injects a String into Nat for hashing. -/
def encodeString (s : String) : Nat :=
  s.foldl (fun a c => a * 256 + c.toNat) 1

/-- encodeBody injects a routed body into Nat for hashing. -/
def encodeBody : RoutedMessageBody → Nat
  | RoutedMessageBody.txStatusRequest a h => Nat.pair 0 (Nat.pair (encodeString a) h)
  | RoutedMessageBody.txStatusResponse r => Nat.pair 1 r
  | RoutedMessageBody.stateRequestHeader s h => Nat.pair 2 (Nat.pair s h)
  | RoutedMessageBody.stateRequestPart s h p => Nat.pair 3 (Nat.pair s (Nat.pair h p))
  | RoutedMessageBody.versionedStateResponse i => Nat.pair 4 i
  | RoutedMessageBody.blockApproval a => Nat.pair 5 a
  | RoutedMessageBody.forwardTx t => Nat.pair 6 t
  | RoutedMessageBody.chunkRequest r => Nat.pair 7 r
  | RoutedMessageBody.chunkResponse r => Nat.pair 8 r
  | RoutedMessageBody.versionedChunk c => Nat.pair 9 c
  | RoutedMessageBody.chunkForward f => Nat.pair 10 f
  | RoutedMessageBody.receiptOutcomeRequest r => Nat.pair 11 r
  | RoutedMessageBody.ping n s => Nat.pair 12 (Nat.pair n s)
  | RoutedMessageBody.pong n s => Nat.pair 13 (Nat.pair n s)
  | RoutedMessageBody.otherBody t => Nat.pair 14 t

/-- encodeTarget injects a message target into Nat for hashing. -/
def encodeTarget : PeerIdOrHash → Nat
  | PeerIdOrHash.peerId p => Nat.pair 0 p
  | PeerIdOrHash.hash h => Nat.pair 1 h

/-- hashOf models RoutedMessageV2::hash symbolically: a deterministic
encoding of the message contents (the cryptographic hash is an external
dependency). -/
def hashOf (m : RoutedMessageV2) : CryptoHash :=
  Nat.pair (encodeTarget m.target) (Nat.pair m.author (Nat.pair (encodeBody m.body)
    (Nat.pair m.ttl (Nat.pair
      (match m.createdAt with | none => 0 | some t => encodeInt t + 1) m.signedWith))))

/-- RouteBackCache is modelled from the spec (section 4.4): a bounded TTL
map from opaque hash to originating peer with a per-peer quota, consumed on
lookup.  Entries carry their insertion instant. -/
structure RouteBackCache where
  capacity : Nat
  perPeerQuota : Nat
  ttl : Int
  entries : List (CryptoHash × PeerId × Int)
deriving DecidableEq

/-- oldestEntry returns the entry with the smallest insertion instant. -/
def oldestEntry (l : List (CryptoHash × PeerId × Int)) :
    Option (CryptoHash × PeerId × Int) :=
  l.foldl (fun acc e =>
    match acc with
    | none => some e
    | some a => if e.2.2 < a.2.2 then some e else some a) none

/-- RouteBackCache.remove is modelled from the spec (section 4.4):
lookup-and-delete; returns none when the hash is absent or the entry has
expired (lazy TTL expiry on access). -/
def RouteBackCache.remove (c : RouteBackCache) (now : Int) (h : CryptoHash) :
    Option PeerId × RouteBackCache :=
  match lookupA c.entries h with
  | none => (none, c)
  | some pt =>
    let c1 := { c with entries := eraseA c.entries h }
    if c.ttl < now - pt.2 then (none, c1) else (some pt.1, c1)

/-- RouteBackCache.insert is modelled from the spec (section 4.4): evict the
inserting peer's oldest entry when its quota is met, insert, then evict the
globally oldest entry when over capacity. -/
def RouteBackCache.insert (c : RouteBackCache) (now : Int) (h : CryptoHash)
    (p : PeerId) : RouteBackCache :=
  let mine := c.entries.filter (fun e => e.2.1 = p)
  let e1 :=
    if c.perPeerQuota ≤ mine.length then
      match oldestEntry mine with
      | some old => c.entries.filter (fun e => e ≠ old)
      | none => c.entries
    else c.entries
  let e2 := insertA e1 h (p, now)
  if c.capacity < e2.length then
    match oldestEntry e2 with
    | some old => { c with entries := e2.filter (fun e => e ≠ old) }
    | none => { c with entries := e2 }
  else { c with entries := e2 }

/-- PeerMessage mirrors the wire variants dispatched by receive_message
(spec section 6). -/
inductive PeerMessage where
  | Routed (msg : RoutedMessageV2)
  | Block (b : Nat)
  | BlockRequest (h : Nat)
  | BlockHeaders (hs : Nat)
  | BlockHeadersRequest (hs : Nat)
  | Transaction (t : Nat)
  | Challenge (c : Nat)
  | PeersRequest
  | otherMessage (tag : Nat)
deriving DecidableEq

/-- PeerAddr mirrors PeerAddr (spec section 3). -/
structure PeerAddr where
  peer_id : PeerId
  addr : Nat
deriving DecidableEq

/-- AccountData is modelled from the spec (section 3 AccountsDataRecord):
a validator announcement with optional peer id and proxy list. -/
structure AccountData where
  account_id : AccountId
  epoch_id : Nat
  peer_id : Option PeerId
  peers : List PeerAddr
  timestamp : Int
deriving DecidableEq

/-- NetClient is modelled from the spec (section 6 client contract): one
method per inbound application message, each returning a reply option or a
ban reason. -/
structure NetClient where
  tx_status_request : AccountId → Nat → Except ReasonForBan (Option Nat)
  tx_status_response : Nat → Except ReasonForBan Unit
  state_request_header : Nat → Nat → Except ReasonForBan (Option Nat)
  state_request_part : Nat → Nat → Nat → Except ReasonForBan (Option Nat)
  state_response : Nat → Except ReasonForBan Unit
  block_approval : Nat → PeerId → Except ReasonForBan Unit
  transaction : Nat → Bool → Except ReasonForBan Unit
  chunk_request : Nat → CryptoHash → Except ReasonForBan Unit
  chunk_response : Nat → Int → Except ReasonForBan Unit
  chunk : Nat → Except ReasonForBan Unit
  chunk_forward : Nat → Except ReasonForBan Unit
  block_request : Nat → Except ReasonForBan (Option Nat)
  block_headers_request : Nat → Except ReasonForBan (Option Nat)
  block : Nat → PeerId → Bool → Except ReasonForBan Unit
  block_headers : Nat → PeerId → Except ReasonForBan Unit
  challenge : Nat → Except ReasonForBan Unit

/-- NetworkState mirrors the fields of NetworkState used by the router:
node identity and key, ttl configuration, the two pools (as their ready
peer-id sets), the TIER1 route-back cache, and the routing table view
(next-hop resolution, its own route-back cache, account owners) together
with the accounts-data records. -/
structure NetworkState where
  node_id : PeerId
  node_key : Nat
  routed_message_ttl : Nat
  tier1_ready : List PeerId
  tier2_ready : List PeerId
  tier1_route_back : RouteBackCache
  rtv_next_hop : List (PeerId × PeerId)
  rtv_route_back : RouteBackCache
  rtv_account_owner : List (AccountId × PeerId)
  accounts_data : List AccountData
deriving DecidableEq

/-- SendEvent records one pool send attempt: the tier, the wire peer the
message was handed to, and the message. -/
structure SendEvent where
  tier : Tier
  peer : PeerId
  msg : PeerMessage
deriving DecidableEq

/-- NetworkState.sign_message mirrors NetworkState::sign_message: sign with
the node key, the configured ttl and the current UTC clock reading. -/
def NetworkState.sign_message (ns : NetworkState) (clock : Clock)
    (msg : RawRoutedMessage) : RoutedMessageV2 :=
  { target := msg.target, author := ns.node_id, body := msg.body,
    ttl := ns.routed_message_ttl, createdAt := some clock.utc,
    signedWith := ns.node_key }

/-- NetworkState.find_route is modelled from the spec (section 4.7): TIER2
resolution of a target; a peer-id target is resolved through the routing
table, a hash target consumes the routing-table-view route-back entry. -/
def NetworkState.find_route (ns : NetworkState) (clock : Clock)
    (target : PeerIdOrHash) : Option PeerId × NetworkState :=
  match target with
  | PeerIdOrHash.peerId p => (lookupA ns.rtv_next_hop p, ns)
  | PeerIdOrHash.hash h =>
    let pr := ns.rtv_route_back.remove clock.inst h
    (pr.1, { ns with rtv_route_back := pr.2 })

/-- NetworkState.add_route_back mirrors the add_route_back call used before
a TIER2 send that expects a response. -/
def NetworkState.add_route_back (ns : NetworkState) (clock : Clock)
    (h : CryptoHash) (p : PeerId) : NetworkState :=
  { ns with rtv_route_back := ns.rtv_route_back.insert clock.inst h p }

/-- NetworkState.send_message_to_peer mirrors NetworkState::send_message_to_peer.
It returns whether the message was sent, the updated state, and the list of
pool send attempts (spec section 4.5: a pool send returns false iff the
peer is not ready). -/
def NetworkState.send_message_to_peer (ns : NetworkState) (clock : Clock)
    (tier : Tier) (msg : RoutedMessageV2) : Bool × NetworkState × List SendEvent :=
  let my_peer_id := ns.node_id
  if msg.target = PeerIdOrHash.peerId my_peer_id then (false, ns, [])
  else
    match tier with
    | Tier.T1 =>
      match msg.target with
      | PeerIdOrHash.hash h =>
        let pr := ns.tier1_route_back.remove clock.inst h
        let ns1 := { ns with tier1_route_back := pr.2 }
        match pr.1 with
        | none => (false, ns1, [])
        | some peer_id =>
          (decide (peer_id ∈ ns1.tier1_ready), ns1,
            [{ tier := Tier.T1, peer := peer_id, msg := PeerMessage.Routed msg }])
      | PeerIdOrHash.peerId peer_id =>
        (decide (peer_id ∈ ns.tier1_ready), ns,
          [{ tier := Tier.T1, peer := peer_id, msg := PeerMessage.Routed msg }])
    | Tier.T2 =>
      let pr := ns.find_route clock msg.target
      match pr.1 with
      | some peer_id =>
        let ns2 :=
          if msg.author = my_peer_id && expectResponse msg.body then
            pr.2.add_route_back clock (hashOf msg) my_peer_id
          else pr.2
        (decide (peer_id ∈ ns2.tier2_ready), ns2,
          [{ tier := Tier.T2, peer := peer_id, msg := PeerMessage.Routed msg }])
      | none => (false, pr.2, [])

/-- NetworkState.get_tier1_peer mirrors NetworkState::get_tier1_peer: a
direct ready TIER1 connection to the peer announced by the account.  The
result pairs the announced peer id with the connection peer. -/
def NetworkState.get_tier1_peer (ns : NetworkState) (account_id : AccountId) :
    Option (PeerId × PeerId) :=
  (ns.accounts_data.filter (fun d => d.account_id = account_id)).findSome? (fun d =>
    match d.peer_id with
    | none => none
    | some peer_id =>
      if peer_id ∈ ns.tier1_ready then some (peer_id, peer_id) else none)

/-- NetworkState.get_tier1_proxy mirrors NetworkState::get_tier1_proxy:
prefer a direct connection, else any ready TIER1 connection to an announced
proxy of the account. -/
def NetworkState.get_tier1_proxy (ns : NetworkState) (account_id : AccountId) :
    Option (PeerId × PeerId) :=
  match ns.get_tier1_peer account_id with
  | some res => some res
  | none =>
    (ns.accounts_data.filter (fun d => d.account_id = account_id)).findSome? (fun d =>
      match d.peer_id with
      | none => none
      | some peer_id =>
        d.peers.findSome? (fun proxy =>
          if proxy.peer_id ∈ ns.tier1_ready then some (peer_id, proxy.peer_id) else none))

/-- IMPORTANT_MESSAGE_RESENT_COUNT mirrors the constant: important messages
are sent three times. -/
def IMPORTANT_MESSAGE_RESENT_COUNT : Nat := 3

/-- NetworkState.send_message_to_account mirrors
NetworkState::send_message_to_account: an optional TIER1 direct-connection
send for TIER1-eligible bodies, then resolution of the owning peer, then
one TIER2 send, or three for important bodies with the success flags OR-ed. -/
def NetworkState.send_message_to_account (ns : NetworkState) (clock : Clock)
    (account_id : AccountId) (msg : RoutedMessageBody) :
    Bool × NetworkState × List SendEvent :=
  let t1events :=
    if tierT1AllowedRouted msg then
      match ns.get_tier1_proxy account_id with
      | some tc =>
        [{ tier := Tier.T1, peer := tc.2,
           msg := PeerMessage.Routed (ns.sign_message clock
             { target := PeerIdOrHash.peerId tc.1, body := msg }) }]
      | none => []
    else []
  match lookupA ns.rtv_account_owner account_id with
  | none => (false, ns, t1events)
  | some target =>
    let m := ns.sign_message clock { target := PeerIdOrHash.peerId target, body := msg }
    if m.body.is_important then
      (List.range IMPORTANT_MESSAGE_RESENT_COUNT).foldl
        (fun (acc : Bool × NetworkState × List SendEvent) _ =>
          let p := acc.2.1.send_message_to_peer clock Tier.T2 m
          (acc.1 || p.1, p.2.1, acc.2.2 ++ p.2.2))
        (false, ns, t1events)
    else
      let p := ns.send_message_to_peer clock Tier.T2 m
      (p.1, p.2.1, t1events ++ p.2.2)

/-- NetworkState.receive_routed_message mirrors
NetworkState::receive_routed_message: dispatch a routed body to the client,
returning an optional reply body or a ban reason. -/
def NetworkState.receive_routed_message (ns : NetworkState) (client : NetClient)
    (clock : Clock) (peer_id : PeerId) (msg_hash : CryptoHash)
    (body : RoutedMessageBody) : Except ReasonForBan (Option RoutedMessageBody) :=
  match body with
  | RoutedMessageBody.txStatusRequest account_id tx_hash =>
    (client.tx_status_request account_id tx_hash).map
      (fun r => r.map RoutedMessageBody.txStatusResponse)
  | RoutedMessageBody.txStatusResponse tx_result =>
    (client.tx_status_response tx_result).map (fun _ => none)
  | RoutedMessageBody.stateRequestHeader shard_id sync_hash =>
    (client.state_request_header shard_id sync_hash).map
      (fun r => r.map RoutedMessageBody.versionedStateResponse)
  | RoutedMessageBody.stateRequestPart shard_id sync_hash part_id =>
    (client.state_request_part shard_id sync_hash part_id).map
      (fun r => r.map RoutedMessageBody.versionedStateResponse)
  | RoutedMessageBody.versionedStateResponse info =>
    (client.state_response info).map (fun _ => none)
  | RoutedMessageBody.blockApproval approval =>
    (client.block_approval approval peer_id).map (fun _ => none)
  | RoutedMessageBody.forwardTx tx =>
    (client.transaction tx true).map (fun _ => none)
  | RoutedMessageBody.chunkRequest request =>
    (client.chunk_request request msg_hash).map (fun _ => none)
  | RoutedMessageBody.chunkResponse response =>
    (client.chunk_response response clock.inst).map (fun _ => none)
  | RoutedMessageBody.versionedChunk chunk =>
    (client.chunk chunk).map (fun _ => none)
  | RoutedMessageBody.chunkForward fwd =>
    (client.chunk_forward fwd).map (fun _ => none)
  | RoutedMessageBody.receiptOutcomeRequest _ => Except.ok none
  | _ => Except.ok none

/-- NetworkState.receive_message mirrors NetworkState::receive_message: for
a routed message, dispatch the body and wrap any reply into a routed message
targeted at the hash of the request, signed with the local key and clock;
otherwise dispatch the wire variant to the client. -/
def NetworkState.receive_message (ns : NetworkState) (client : NetClient)
    (clock : Clock) (peer_id : PeerId) (msg : PeerMessage) (was_requested : Bool) :
    Except ReasonForBan (Option PeerMessage) :=
  match msg with
  | PeerMessage.Routed m =>
    let msg_hash := hashOf m
    (ns.receive_routed_message client clock peer_id msg_hash m.body).map (fun o =>
      o.map (fun body =>
        PeerMessage.Routed (ns.sign_message clock
          { target := PeerIdOrHash.hash msg_hash, body := body })))
  | PeerMessage.BlockRequest h =>
    (client.block_request h).map (fun o => o.map PeerMessage.Block)
  | PeerMessage.BlockHeadersRequest hs =>
    (client.block_headers_request hs).map (fun o => o.map PeerMessage.BlockHeaders)
  | PeerMessage.Block b =>
    (client.block b peer_id was_requested).map (fun _ => none)
  | PeerMessage.Transaction t =>
    (client.transaction t false).map (fun _ => none)
  | PeerMessage.BlockHeaders hs =>
    (client.block_headers hs peer_id).map (fun _ => none)
  | PeerMessage.Challenge c =>
    (client.challenge c).map (fun _ => none)
  | _ => Except.ok none

/-! Diagnostic censorship tool (plague/src/lib.rs).  The SQLite side-ledger
and the JSON files are external effects: database outcomes are modelled as
booleans, the JSON write as the returned censored record, and a panic as
none. -/

/-- validAccountIdChar models the character set of a valid account id. -/
def validAccountIdChar (c : Char) : Bool :=
  c.isLower || c.isDigit || c = '_' || c = '-' || c = '.'

/-- parseAccountId models the validated AccountId parsing of the external
near_primitives dependency (approximated - length bounds and character
set); none models a parse failure. -/
def parseAccountId (s : String) : Option AccountId :=
  if 2 ≤ s.length && s.length ≤ 64 && s.toList.all validAccountIdChar then some s else none

/-- SignedTransaction carries the two account ids inspected by the tool. -/
structure SignedTransaction where
  signer_id : AccountId
  receiver_id : AccountId
deriving DecidableEq

/-- TransactionOrigin mirrors TransactionOrigin in plague/src/lib.rs. -/
inductive TransactionOrigin where
  | ClientAdapter
  | Client
  | SendTxAsync
  | SendTxCommit
deriving DecidableEq

/-- TransactionOrigin.display mirrors the Display implementation. -/
def TransactionOrigin.display : TransactionOrigin → String
  | TransactionOrigin.ClientAdapter => "ClientAdapter"
  | TransactionOrigin.Client => "Client"
  | TransactionOrigin.SendTxAsync => "SendTxAsync"
  | TransactionOrigin.SendTxCommit => "SendTxCommit"

/-- CensoredTransaction mirrors CensoredTransaction in plague/src/lib.rs. -/
structure CensoredTransaction where
  transaction : SignedTransaction
  blacklisted_id : AccountId
  where_censored : String
  timestamp : Int
deriving DecidableEq

/-- check_if_env_exists mirrors check_if_env_exists: the BLACKLIST
environment variable (modelled as an optional string) is present. -/
def check_if_env_exists (env : Option String) : Bool := env.isSome

/-- splitOnCommaAux splits a character list at commas. -/
def splitOnCommaAux : List Char → List Char → List String
  | [], acc => [String.mk acc.reverse]
  | c :: cs, acc =>
    if c = ',' then String.mk acc.reverse :: splitOnCommaAux cs []
    else splitOnCommaAux cs (c :: acc)

/-- splitOnComma mirrors env_var.split(m) for the comma separator. -/
def splitOnComma (s : String) : List String := splitOnCommaAux s.data []

/-- get_env_blacklist mirrors get_env_blacklist: split the variable on
commas and parse every entry; a parse failure is a panic (none). -/
def get_env_blacklist (env : Option String) : Option (List AccountId) :=
  (splitOnComma (env.getD "")).mapM parseAccountId

/-- check_blacklisted mirrors check_blacklisted: the receiver id is checked
before the signer id. -/
def check_blacklisted (blacklist : List AccountId) (transaction : SignedTransaction) :
    Bool × Option AccountId :=
  if transaction.receiver_id ∈ blacklist then (true, some transaction.receiver_id)
  else if transaction.signer_id ∈ blacklist then (true, some transaction.signer_id)
  else (false, none)

/-- plague_touch mirrors plague_touch: false when BLACKLIST is unset;
otherwise censor the transaction when an account is blacklisted, recording
the censored transaction (the JSON side effect); none models a panic. -/
def plague_touch (env : Option String) (transaction : SignedTransaction)
    (origin : TransactionOrigin) (now : Int) :
    Option (Bool × Option CensoredTransaction) :=
  if !(check_if_env_exists env) then some (false, none)
  else
    match get_env_blacklist env with
    | none => none
    | some blacklist =>
      let is_blacklisted := check_blacklisted blacklist transaction
      if is_blacklisted.1 then
        match is_blacklisted.2 with
        | some bid =>
          let censored : CensoredTransaction :=
            { transaction := transaction, blacklisted_id := bid,
              where_censored := origin.display, timestamp := now }
          some (true, some censored)
        | none => none
      else some (false, none)

/-- PlagueDbEnv models the outcomes of the two fallible database operations
of plague_watch: opening the database and inserting the row. -/
structure PlagueDbEnv where
  open_ok : Bool
  insert_ok : Bool
deriving DecidableEq

/-- plague_watch mirrors plague_watch: open the database (unwrap), build the
row unwrapping the socket address, insert (unwrap), return true; none
models a panic of any unwrap. -/
def plague_watch (db : PlagueDbEnv) (transaction : SignedTransaction)
    (peer_id : PeerId) (socket_address : Option Nat) (is_forwarded : Nat) :
    Option Bool :=
  if !db.open_ok then none
  else
    match socket_address with
    | none => none
    | some _ => if !db.insert_ok then none else some true

/-! Concrete scenario states used by the witnesses and counterexamples. -/

/-- mkEdge builds a validly signed edge. -/
def mkEdge (a b n : Nat) (t : Int) : Edge :=
  { peer0 := a, peer1 := b, nonce := n, sig0 := (a, b, n), sig1 := (a, b, n), createdAt := t }

/-- c1cfg prunes edges after 10 time units; unreachable peers after 1000. -/
def c1cfg : GraphConfig :=
  { node_id := 0, prune_unreachable_peers_after := 1000, prune_edges_after := some 10 }

/-- c1e5 is the first accepted edge (nonce 5). -/
def c1e5 : Edge := mkEdge 0 1 5 0

/-- c1e3 is the later lower-nonce edge (nonce 3, fresh timestamp). -/
def c1e3 : Edge := mkEdge 0 1 3 20

/-- c1run1 accepts the nonce-5 edge at time 0. -/
def c1run1 : (List Edge × GraphSnapshot) × RoutingInner :=
  (initialInner c1cfg emptyStore).update { utc := 0, inst := 0 } [c1e5] []

/-- c1run2 offers the nonce-3 edge at time 20: rejected, and the nonce-5
edge falls out of the age window. -/
def c1run2 : (List Edge × GraphSnapshot) × RoutingInner :=
  c1run1.2.update { utc := 20, inst := 20 } [c1e3] []

/-- c1run3 offers the nonce-3 edge again at time 21: now accepted. -/
def c1run3 : (List Edge × GraphSnapshot) × RoutingInner :=
  c1run2.2.update { utc := 21, inst := 21 } [c1e3] []

/-- c2cfg prunes edges after 10 time units; unreachable peers after 100. -/
def c2cfg : GraphConfig :=
  { node_id := 0, prune_unreachable_peers_after := 100, prune_edges_after := some 10 }

/-- c2e is an active edge between this node and peer 1. -/
def c2e : Edge := mkEdge 0 1 1 0

/-- c2run1 accepts the edge at time 0, making peer 1 reachable. -/
def c2run1 : (List Edge × GraphSnapshot) × RoutingInner :=
  (initialInner c2cfg emptyStore).update { utc := 0, inst := 0 } [c2e] []

/-- c2run2 runs at time 60: the edge ages out, peer 1 keeps its stamp. -/
def c2run2 : (List Edge × GraphSnapshot) × RoutingInner :=
  c2run1.2.update { utc := 60, inst := 60 } [] []

/-- c2run3 runs at time 160: the pruning step runs and peer 1 is stale. -/
def c2run3 : (List Edge × GraphSnapshot) × RoutingInner :=
  c2run2.2.update { utc := 160, inst := 160 } [] []

/-- c3good is a stored edge with nonce 4 for key (1,2). -/
def c3good : Edge := mkEdge 1 2 4 0

/-- c3bad is an incoming edge for the same key with lower nonce 2 and
invalid signatures. -/
def c3bad : Edge :=
  { peer0 := 1, peer1 := 2, nonce := 2, sig0 := (9, 9, 9), sig1 := (9, 9, 9), createdAt := 0 }

/-- emptyRouteBack is an empty route-back cache. -/
def emptyRouteBack : RouteBackCache :=
  { capacity := 100, perPeerQuota := 10, ttl := 1000, entries := [] }

/-- c4ns is a state whose TIER1 route-back cache maps hash 42 to this node
itself (node 0), and whose TIER1 pool has a ready self connection. -/
def c4ns : NetworkState :=
  { node_id := 0, node_key := 7, routed_message_ttl := 20,
    tier1_ready := [0], tier2_ready := [],
    tier1_route_back :=
      { capacity := 100, perPeerQuota := 10, ttl := 1000, entries := [(42, 0, 0)] },
    rtv_next_hop := [], rtv_route_back := emptyRouteBack,
    rtv_account_owner := [], accounts_data := [] }

/-- c4msg is a signed routed message targeted at hash 42. -/
def c4msg : RoutedMessageV2 :=
  { target := PeerIdOrHash.hash 42, author := 1, body := RoutedMessageBody.pong 0 1,
    ttl := 5, createdAt := some 0, signedWith := 3 }

/-- c5ns is a state whose TIER1 route-back cache maps hash 8 to peer 6,
which is not ready in the TIER1 pool. -/
def c5ns : NetworkState :=
  { node_id := 0, node_key := 7, routed_message_ttl := 20,
    tier1_ready := [], tier2_ready := [],
    tier1_route_back :=
      { capacity := 100, perPeerQuota := 10, ttl := 1000, entries := [(8, 6, 0)] },
    rtv_next_hop := [], rtv_route_back := emptyRouteBack,
    rtv_account_owner := [], accounts_data := [] }

/-- c5msg is a signed routed message targeted at hash 8. -/
def c5msg : RoutedMessageV2 :=
  { target := PeerIdOrHash.hash 8, author := 0, body := RoutedMessageBody.pong 1 0,
    ttl := 5, createdAt := some 0, signedWith := 7 }

/-- c7ns is a state where account v is owned by peer 3, routed through
ready TIER2 peer 4. -/
def c7ns : NetworkState :=
  { node_id := 0, node_key := 7, routed_message_ttl := 20,
    tier1_ready := [], tier2_ready := [4],
    tier1_route_back := emptyRouteBack,
    rtv_next_hop := [(3, 4)], rtv_route_back := emptyRouteBack,
    rtv_account_owner := [("v", 3)], accounts_data := [] }

/-- c8client is a client whose tx-status handler replies with result 5. -/
def c8client : NetClient :=
  { tx_status_request := fun _ _ => Except.ok (some 5)
    tx_status_response := fun _ => Except.ok ()
    state_request_header := fun _ _ => Except.ok none
    state_request_part := fun _ _ _ => Except.ok none
    state_response := fun _ => Except.ok ()
    block_approval := fun _ _ => Except.ok ()
    transaction := fun _ _ => Except.ok ()
    chunk_request := fun _ _ => Except.ok ()
    chunk_response := fun _ _ => Except.ok ()
    chunk := fun _ => Except.ok ()
    chunk_forward := fun _ => Except.ok ()
    block_request := fun _ => Except.ok none
    block_headers_request := fun _ => Except.ok none
    block := fun _ _ _ => Except.ok ()
    block_headers := fun _ _ => Except.ok ()
    challenge := fun _ => Except.ok () }

/-- c8ns is a minimal network state for the reply-wrapping witness. -/
def c8ns : NetworkState :=
  { node_id := 0, node_key := 7, routed_message_ttl := 20,
    tier1_ready := [], tier2_ready := [],
    tier1_route_back := emptyRouteBack,
    rtv_next_hop := [], rtv_route_back := emptyRouteBack,
    rtv_account_owner := [], accounts_data := [] }

/-- c8m is an inbound routed tx-status request. -/
def c8m : RoutedMessageV2 :=
  { target := PeerIdOrHash.peerId 0, author := 2,
    body := RoutedMessageBody.txStatusRequest "alice" 11,
    ttl := 5, createdAt := some 0, signedWith := 2 }

/-- c9tx is a transaction between two blacklisted accounts. -/
def c9tx : SignedTransaction := { signer_id := "bob.near", receiver_id := "alice.near" }

/-- c2wi is a state with one stored edge between peers 1 and 2, neither of
which has a peer_reachable_at entry. -/
def c2wi : RoutingInner :=
  { config := { node_id := 0, prune_unreachable_peers_after := 100, prune_edges_after := none }
    graph := { nodeId := 0, adj := [(1, 2)] }
    edges := [((1, 2), mkEdge 1 2 1 0)]
    peer_reachable_at := []
    store := emptyStore
    last_time_peers_pruned := none }

/-- c6wcfg is a configuration for the insert-twice witness. -/
def c6wcfg : GraphConfig :=
  { node_id := 0, prune_unreachable_peers_after := 7, prune_edges_after := some 5 }

/-- c6stateN is the engine state after one update inserting a single edge
whose endpoints are both different from this node: the edge has been
archived as component 0 and both endpoints mapped to it. -/
def c6stateN (cfg : GraphConfig) (e : Edge) (t : Int) : RoutingInner :=
  { config := cfg, graph := { nodeId := cfg.node_id, adj := [] }, edges := [],
    peer_reachable_at := [(cfg.node_id, t)],
    store := { nextComponentId := 1, componentEdges := [(0, [e])],
               peerComponent := [(e.peer0, 0), (e.peer1, 0)] },
    last_time_peers_pruned := some t }

/-- c6stateA is the engine state after one update inserting a single active
edge incident to this node, with reachable other endpoint o. -/
def c6stateA (cfg : GraphConfig) (e : Edge) (o : PeerId) (t : Int) : RoutingInner :=
  { config := cfg, graph := { nodeId := cfg.node_id, adj := [(e.peer0, e.peer1)] },
    edges := [((e.peer0, e.peer1), e)],
    peer_reachable_at := [(cfg.node_id, t), (o, t)],
    store := emptyStore, last_time_peers_pruned := some t }

/-- c6stateR is the engine state after one update inserting a single
removed-state edge incident to this node: the unreachable other endpoint o
has been archived with the edge as component 0. -/
def c6stateR (cfg : GraphConfig) (e : Edge) (o : PeerId) (t : Int) : RoutingInner :=
  { config := cfg, graph := { nodeId := cfg.node_id, adj := [] }, edges := [],
    peer_reachable_at := [(cfg.node_id, t)],
    store := { nextComponentId := 1, componentEdges := [(0, [e])],
               peerComponent := [(o, 0)] },
    last_time_peers_pruned := some t }

/-! Helper lemmas about the association-list operations. -/

theorem lookupA_nil {α β : Type} [DecidableEq α] (k : α) :
    lookupA ([] : List (α × β)) k = none := rfl

theorem lookupA_cons {α β : Type} [DecidableEq α] (kv : α × β) (l : List (α × β)) (k : α) :
    lookupA (kv :: l) k = if kv.1 = k then some kv.2 else lookupA l k := by
  by_cases h : kv.1 = k <;> simp [lookupA, List.find?_cons, h]

theorem eraseA_cons {α β : Type} [DecidableEq α] (kv : α × β) (l : List (α × β)) (k : α) :
    eraseA (kv :: l) k = if kv.1 = k then eraseA l k else kv :: eraseA l k := by
  by_cases h : kv.1 = k <;> simp [eraseA, List.filter_cons, h]

theorem lookupA_append {α β : Type} [DecidableEq α] (l1 l2 : List (α × β)) (k : α) :
    lookupA (l1 ++ l2) k =
      match lookupA l1 k with
      | some v => some v
      | none => lookupA l2 k := by
  induction l1 with
  | nil => simp [lookupA_nil]
  | cons kv t ih => by_cases h : kv.1 = k <;> simp [lookupA_cons, h, ih]

theorem lookupA_eraseA_self {α β : Type} [DecidableEq α] (l : List (α × β)) (k : α) :
    lookupA (eraseA l k) k = none := by
  induction l with
  | nil => rfl
  | cons kv t ih =>
    by_cases h : kv.1 = k <;> simp [eraseA_cons, h, lookupA_cons, ih]

theorem lookupA_eraseA_ne {α β : Type} [DecidableEq α] (l : List (α × β)) (k k' : α)
    (h : k' ≠ k) : lookupA (eraseA l k) k' = lookupA l k' := by
  induction l with
  | nil => rfl
  | cons kv t ih =>
    by_cases hk : kv.1 = k
    · rw [eraseA_cons]
      simp only [hk, if_pos]
      rw [ih, lookupA_cons]
      have : kv.1 ≠ k' := by rw [hk]; exact fun hh => h hh.symm
      simp [this]
    · rw [eraseA_cons]
      simp only [hk, if_neg, if_false]
      rw [lookupA_cons, lookupA_cons, ih]

theorem lookupA_insertA_self {α β : Type} [DecidableEq α] (l : List (α × β)) (k : α) (v : β) :
    lookupA (insertA l k v) k = some v := by
  rw [insertA, lookupA_append, lookupA_eraseA_self]
  simp [lookupA_cons]

theorem lookupA_insertA_ne {α β : Type} [DecidableEq α] (l : List (α × β)) (k k' : α) (v : β)
    (h : k' ≠ k) : lookupA (insertA l k v) k' = lookupA l k' := by
  rw [insertA, lookupA_append, lookupA_eraseA_ne l k k' h]
  cases hl : lookupA l k' with
  | some w => rfl
  | none =>
    rw [lookupA_cons]
    have hk : ¬ (k = k') := fun hh => h hh.symm
    simp [hk, lookupA_nil]

theorem lookupA_eraseA_none {α β : Type} [DecidableEq α] (l : List (α × β)) (k p : α)
    (h : lookupA l p = none) : lookupA (eraseA l k) p = none := by
  by_cases hk : p = k
  · rw [hk]; exact lookupA_eraseA_self l k
  · rw [lookupA_eraseA_ne l k p hk]; exact h

theorem lookupA_foldl_eraseA_none {α β : Type} [DecidableEq α] (ps : List α)
    (m : List (α × β)) (p : α) (h : lookupA m p = none) :
    lookupA (ps.foldl eraseA m) p = none := by
  induction ps generalizing m with
  | nil => exact h
  | cons q t ih => exact ih (eraseA m q) (lookupA_eraseA_none m q p h)

theorem lookupA_foldl_eraseA_of_mem {α β : Type} [DecidableEq α] (ps : List α)
    (m : List (α × β)) (p : α) (hp : p ∈ ps) :
    lookupA (ps.foldl eraseA m) p = none := by
  induction ps generalizing m with
  | nil => cases hp
  | cons q t ih =>
    rcases List.mem_cons.mp hp with h | h
    · subst h
      exact lookupA_foldl_eraseA_none t (eraseA m p) p (lookupA_eraseA_self m p)
    · exact ih (eraseA m q) h

/-! C1: edge acceptance and per-key nonce behaviour of update_edge. -/

/-- C1 (amended): update_edge accepts an incoming edge iff no stored edge
with the same key has a nonce greater than or equal to the incoming nonce
and prune_edges_after is either unset or the edge's timestamp is within the
window; an accepted edge becomes the unique stored edge of its key, and as
long as an edge for a key stays stored its nonce never decreases.  (The
stored nonce is not the maximum ever accepted across pruning: once the edge
of a key is pruned, a lower nonce may be accepted again.) -/
theorem c1_update_edge_characterization (i : RoutingInner) (now : Int) (e : Edge) :
    ((i.update_edge now e).2 = true ↔
      (hasEdge i.edges e = false ∧
        ∀ d, i.config.prune_edges_after = some d → e.is_edge_older_than (now - d) = false))
    ∧ ((i.update_edge now e).2 = true →
        lookupA (i.update_edge now e).1.edges e.key = some e)
    ∧ (∀ e0 e1, lookupA i.edges e.key = some e0 →
        lookupA (i.update_edge now e).1.edges e.key = some e1 → e0.nonce ≤ e1.nonce) := by
  refine ⟨?_, ?_, ?_⟩
  · by_cases h1 : hasEdge i.edges e
    · simp [RoutingInner.update_edge, h1]
    · cases hc : i.config.prune_edges_after with
      | none => simp [RoutingInner.update_edge, h1, hc]
      | some d =>
        by_cases h2 : e.is_edge_older_than (now - d) <;>
          simp [RoutingInner.update_edge, h1, hc, h2]
  · intro hacc
    by_cases h1 : hasEdge i.edges e
    · simp [RoutingInner.update_edge, h1] at hacc
    · cases hc : i.config.prune_edges_after with
      | none =>
        simp [RoutingInner.update_edge, h1, hc, RoutingInner.insertEdgeRaw,
          lookupA_insertA_self]
      | some d =>
        by_cases h2 : e.is_edge_older_than (now - d)
        · simp [RoutingInner.update_edge, h1, hc, h2] at hacc
        · simp [RoutingInner.update_edge, h1, hc, h2, RoutingInner.insertEdgeRaw,
            lookupA_insertA_self]
  · intro e0 e1 h0 h1
    by_cases hh : hasEdge i.edges e
    · rw [RoutingInner.update_edge] at h1
      simp [hh] at h1
      rw [h0] at h1
      cases h1
      exact Nat.le_refl _
    · have hlt : e0.nonce < e.nonce := by
        rw [hasEdge, h0] at hh
        simpa using Nat.lt_of_not_le (by simpa using hh)
      rw [RoutingInner.update_edge] at h1
      rw [if_neg (by simp [hh])] at h1
      by_cases h2 : (match i.config.prune_edges_after with
        | some d => e.is_edge_older_than (now - d)
        | none => false) = true
      · rw [if_pos h2] at h1
        replace h1 : lookupA i.edges e.key = some e1 := h1
        rw [h0] at h1
        cases h1
        exact Nat.le_refl _
      · rw [if_neg h2] at h1
        replace h1 : lookupA (insertA i.edges e.key e) e.key = some e1 := h1
        rw [lookupA_insertA_self] at h1
        cases h1
        exact Nat.le_of_lt hlt

/-- C1 witness: at a concrete accepting input the edge is stored. -/
theorem c1_witness :
    lookupA (((initialInner c1cfg emptyStore).update_edge 5 c1e5).1).edges c1e5.key
      = some c1e5 :=
  (c1_update_edge_characterization (initialInner c1cfg emptyStore) 5 c1e5).2.1 (by decide)

/-- C1 counterexample: the nonce-5 edge for key (0,1) is accepted, ages out
of the prune window, and afterwards a nonce-3 edge for the same key is
accepted and stored, so the stored nonce is not the maximum ever accepted. -/
theorem c1_counterexample :
    c1run1.1.1 = [c1e5] ∧ c1run3.1.1 = [c1e3]
    ∧ lookupA c1run3.2.edges (0, 1) = some c1e3
    ∧ c1e3.nonce < c1e5.nonce := by decide

/-! C3: Graph::verify strips edges before checking signatures. -/

/-- C3 (amended): all_ok is false iff some edge that survives deduplication
and the already-stored strip fails signature verification, and the verified
output is exactly those surviving edges that pass verification.  (An input
edge dropped by deduplication or by the strip is never verified and cannot
flip all_ok.) -/
theorem c3_verify_characterization (old : List (EdgeKey × Edge)) (edges : List Edge) :
    (graphVerify old edges).1
      = ((Edge.deduplicate edges).filter (fun x => !(hasEdge old x))).filter Edge.verify
    ∧ ((graphVerify old edges).2 = false ↔
        ∃ e ∈ (Edge.deduplicate edges).filter (fun x => !(hasEdge old x)),
          e.verify = false) := by
  constructor
  · rfl
  · simp only [graphVerify, List.all_eq_true]
    constructor
    · intro hfalse
      rcases (by simpa [List.all_eq_true] using hfalse :
          ¬ ∀ e ∈ (Edge.deduplicate edges).filter (fun x => !(hasEdge old x)),
            e.verify = true) |> not_forall.mp with ⟨e, he⟩
      rcases Classical.not_imp.mp he with ⟨hmem, hver⟩
      exact ⟨e, hmem, Bool.eq_false_iff.mpr hver⟩
    · rintro ⟨e, hmem, hver⟩ 
      apply Bool.eq_false_iff.mpr
      intro hall
      rw [List.all_eq_true] at hall
      rw [hall e hmem] at hver
      cases hver

/-- C3 counterexample: an input edge with invalid signatures whose key is
already stored at a higher nonce is stripped before verification, so
all_ok stays true although an input edge fails verification. -/
theorem c3_counterexample :
    (graphVerify [((1, 2), c3good)] [c3bad]).2 = true
    ∧ c3bad.verify = false
    ∧ hasEdge [((1, 2), c3good)] c3bad = true := by decide

/-! C4: dropping messages targeted at this node. -/

/-- C4 (amended): a signed routed message whose target is the explicit
PeerId of this node is dropped: nothing is handed to either pool and the
result is false.  (A Hash target is resolved through the route-back caches
and is not compared against this node's id.) -/
theorem c4_self_target_dropped (ns : NetworkState) (clock : Clock) (tier : Tier)
    (msg : RoutedMessageV2) (h : msg.target = PeerIdOrHash.peerId ns.node_id) :
    ns.send_message_to_peer clock tier msg = (false, ns, []) := by
  simp [NetworkState.send_message_to_peer, h]

/-- C4 witness: a concrete self-targeted message is dropped. -/
theorem c4_witness :
    c4ns.send_message_to_peer { utc := 0, inst := 0 } Tier.T2
      { c4msg with target := PeerIdOrHash.peerId 0 } = (false, c4ns, []) :=
  c4_self_target_dropped c4ns { utc := 0, inst := 0 } Tier.T2
    { c4msg with target := PeerIdOrHash.peerId 0 } (by decide)

/-- C4 counterexample: a TIER1 message whose Hash target resolves (through
the route-back cache) to this node itself is not dropped: the pool send to
the node itself is attempted, and with a ready self connection it returns
true rather than false. -/
theorem c4_counterexample :
    (c4ns.tier1_route_back.remove 0 42).1 = some c4ns.node_id
    ∧ (c4ns.send_message_to_peer { utc := 0, inst := 0 } Tier.T1 c4msg).1 = true
    ∧ (c4ns.send_message_to_peer { utc := 0, inst := 0 } Tier.T1 c4msg).2.2 ≠ [] := by
  decide

/-! C9 and C10: the plague tool. -/

/-- C9: plague_touch returns false for every transaction when BLACKLIST is
unset; when it is set and parses, the result is true iff the receiver or
the signer is blacklisted, and a blacklisted receiver is recorded (the
receiver is checked before the signer). -/
theorem c9_plague_touch_characterization (transaction : SignedTransaction)
    (origin : TransactionOrigin) (now : Int) (env : Option String) (s : String)
    (blacklist : List AccountId) (henv : env = some s)
    (hparse : get_env_blacklist (some s) = some blacklist) :
    plague_touch none transaction origin now = some (false, none)
    ∧ ((∃ r, plague_touch env transaction origin now = some (true, r)) ↔
        (transaction.receiver_id ∈ blacklist ∨ transaction.signer_id ∈ blacklist))
    ∧ (transaction.receiver_id ∈ blacklist →
        plague_touch env transaction origin now = some (true, some
          { transaction := transaction, blacklisted_id := transaction.receiver_id,
            where_censored := origin.display, timestamp := now })) := by
  subst henv
  refine ⟨rfl, ?_, ?_⟩
  · by_cases hr : transaction.receiver_id ∈ blacklist
    · simp [plague_touch, check_if_env_exists, hparse, check_blacklisted, hr]
    · by_cases hs : transaction.signer_id ∈ blacklist <;>
        simp [plague_touch, check_if_env_exists, hparse, check_blacklisted, hr, hs]
  · intro hr
    simp [plague_touch, check_if_env_exists, hparse, check_blacklisted, hr]

/-- C9 witness: with BLACKLIST set to two accounts and both the signer and
the receiver blacklisted, the receiver is the recorded account. -/
theorem c9_witness :
    plague_touch (some "alice.near,bob.near") c9tx TransactionOrigin.Client 5
      = some (true, some
          { transaction := c9tx, blacklisted_id := "alice.near",
            where_censored := "Client", timestamp := 5 }) :=
  (c9_plague_touch_characterization c9tx TransactionOrigin.Client 5
    (some "alice.near,bob.near") "alice.near,bob.near" ["alice.near", "bob.near"]
    rfl (by decide)).2.2 (by decide)

/-- C10: plague_watch panics on every call with no socket address, and with
a socket address and succeeding database operations it returns true. -/
theorem c10_plague_watch_characterization (db : PlagueDbEnv)
    (transaction : SignedTransaction) (peer_id : PeerId) (is_forwarded : Nat)
    (addr : Nat) :
    plague_watch db transaction peer_id none is_forwarded = none
    ∧ (db.open_ok = true → db.insert_ok = true →
        plague_watch db transaction peer_id (some addr) is_forwarded = some true) := by
  constructor
  · by_cases h : db.open_ok <;> simp [plague_watch, h]
  · intro h1 h2
    simp [plague_watch, h1, h2]

/-- C10 witness: a concrete call with a socket address and a healthy
database returns true. -/
theorem c10_witness :
    plague_watch { open_ok := true, insert_ok := true } c9tx 3 (some 99) 1 = some true :=
  (c10_plague_watch_characterization { open_ok := true, insert_ok := true }
    c9tx 3 1 99).2 rfl rfl

/-- exists_prefix_append3 shows a triple-append trace has the three suffix
traces after some prefix. -/
theorem exists_prefix_append3 {α : Type} (t a b c : List α) :
    ∃ e, ((t ++ a) ++ b) ++ c = e ++ (a ++ (b ++ c)) := ⟨t, by simp⟩

/-- exists_prefix_append1 shows a single-append trace has the suffix trace
after some prefix. -/
theorem exists_prefix_append1 {α : Type} (t a : List α) :
    ∃ e, t ++ a = e ++ a := ⟨t, rfl⟩

/-! C5: TIER1 hash targets and route-back consumption. -/

/-- C5: on TIER1 with a Hash target the route-back entry is consumed by the
lookup; with no unexpired entry the send returns false with nothing handed
to a pool, and with an entry (h, p) the message is handed to the TIER1 pool
for p and the entry is no longer in the cache afterwards, even when the
pool send returns false. -/
theorem c5_tier1_hash_consumes_route_back (ns : NetworkState) (clock : Clock)
    (msg : RoutedMessageV2) (h : CryptoHash) (ht : msg.target = PeerIdOrHash.hash h) :
    ((ns.tier1_route_back.remove clock.inst h).1 = none →
      (ns.send_message_to_peer clock Tier.T1 msg).1 = false
      ∧ (ns.send_message_to_peer clock Tier.T1 msg).2.2 = [])
    ∧ (∀ p, (ns.tier1_route_back.remove clock.inst h).1 = some p →
      (ns.send_message_to_peer clock Tier.T1 msg).2.2
          = [{ tier := Tier.T1, peer := p, msg := PeerMessage.Routed msg }]
        ∧ lookupA ((ns.send_message_to_peer clock Tier.T1 msg).2.1).tier1_route_back.entries h
            = none
        ∧ (ns.send_message_to_peer clock Tier.T1 msg).2.1
            = { ns with tier1_route_back := (ns.tier1_route_back.remove clock.inst h).2 }) := by
  have hne : ¬ (msg.target = PeerIdOrHash.peerId ns.node_id) := by
    rw [ht]; intro hc; cases hc
  constructor
  · intro hnone
    constructor <;>
      simp [NetworkState.send_message_to_peer, hne, ht, hnone]
  · intro p hp
    have herase : (ns.tier1_route_back.remove clock.inst h).2.entries
        = eraseA ns.tier1_route_back.entries h := by
      rw [RouteBackCache.remove]
      cases hl : lookupA ns.tier1_route_back.entries h with
      | none =>
        rw [RouteBackCache.remove, hl] at hp
        cases hp
      | some pt =>
        by_cases hexp : ns.tier1_route_back.ttl < clock.inst - pt.2 <;> simp [hexp]
    refine ⟨?_, ?_, ?_⟩
    · simp [NetworkState.send_message_to_peer, hne, ht, hp]
    · simp only [NetworkState.send_message_to_peer, hne, if_neg, ht, hp]
      simp [herase, lookupA_eraseA_self]
    · simp [NetworkState.send_message_to_peer, hne, ht, hp]

/-- C5 witness: a concrete TIER1 hash send to a peer that is not ready is
attempted and consumes the route-back entry. -/
theorem c5_witness :
    (c5ns.send_message_to_peer { utc := 0, inst := 0 } Tier.T1 c5msg).2.2
        = [{ tier := Tier.T1, peer := 6, msg := PeerMessage.Routed c5msg }]
    ∧ lookupA ((c5ns.send_message_to_peer { utc := 0, inst := 0 } Tier.T1
        c5msg).2.1).tier1_route_back.entries 8 = none := by
  have h := (c5_tier1_hash_consumes_route_back c5ns { utc := 0, inst := 0 } c5msg 8
    (by decide)).2 6 (by decide)
  exact ⟨h.1, h.2.1⟩

/-! C7: triple send of important messages to accounts. -/

/-- C7: for an account with a known owning peer, an important body is sent
by three successive send_message_to_peer calls on TIER2 carrying the same
signed message, the overall result being the disjunction of the three
outcomes; a non-important body is sent by exactly one such call. -/
theorem c7_account_send_counts (ns : NetworkState) (clock : Clock)
    (account_id : AccountId) (msg : RoutedMessageBody) (owner : PeerId)
    (m : RoutedMessageV2) (p1 p2 p3 : Bool × NetworkState × List SendEvent)
    (howner : lookupA ns.rtv_account_owner account_id = some owner)
    (hm : m = ns.sign_message clock { target := PeerIdOrHash.peerId owner, body := msg })
    (hp1 : p1 = ns.send_message_to_peer clock Tier.T2 m)
    (hp2 : p2 = p1.2.1.send_message_to_peer clock Tier.T2 m)
    (hp3 : p3 = p2.2.1.send_message_to_peer clock Tier.T2 m) :
    (msg.is_important = true →
      (ns.send_message_to_account clock account_id msg).1 = (p1.1 || p2.1 || p3.1)
      ∧ ∃ evs0, (ns.send_message_to_account clock account_id msg).2.2
          = evs0 ++ (p1.2.2 ++ (p2.2.2 ++ p3.2.2)))
    ∧ (msg.is_important = false →
      (ns.send_message_to_account clock account_id msg).1 = p1.1
      ∧ ∃ evs0, (ns.send_message_to_account clock account_id msg).2.2
          = evs0 ++ p1.2.2) := by
  have hbody : m.body = msg := by rw [hm]; rfl
  constructor
  · intro himp
    rw [NetworkState.send_message_to_account]
    rw [howner]
    simp only [← hm, hbody, himp, if_pos]
    have hr : List.range IMPORTANT_MESSAGE_RESENT_COUNT = [0, 1, 2] := rfl
    rw [hr]
    simp only [List.foldl_cons, List.foldl_nil, ← hp1, ← hp2, ← hp3]
    constructor
    · simp [Bool.or_assoc]
    · exact exists_prefix_append3 _ _ _ _
  · intro himp
    rw [NetworkState.send_message_to_account]
    rw [howner]
    simp only [← hm, hbody, himp, Bool.false_eq_true, if_false, ← hp1]
    exact ⟨by simp, exists_prefix_append1 _ _⟩

/-- C7 witness: a concrete important message to a known account owner is
sent and reported successful. -/
theorem c7_witness :
    (c7ns.send_message_to_account { utc := 0, inst := 0 } "v"
      (RoutedMessageBody.blockApproval 1)).1 = true := by
  have h := (c7_account_send_counts c7ns { utc := 0, inst := 0 } "v"
    (RoutedMessageBody.blockApproval 1) 3 _ _ _ _ (by decide) rfl rfl rfl rfl).1 rfl
  rw [h.1]
  decide

/-! C8: wrapping of routed replies. -/

/-- C8: when the handler of an inbound routed message produces a reply
body, receive_message returns a routed message whose target is the hash of
the request, whose author is this node, signed with the local node key,
carrying the configured ttl and the current UTC clock reading; when the
handler produces no reply body, receive_message returns none. -/
theorem c8_routed_reply_wrapping (ns : NetworkState) (client : NetClient)
    (clock : Clock) (peer_id : PeerId) (m : RoutedMessageV2) (was_requested : Bool) :
    (∀ body, ns.receive_routed_message client clock peer_id (hashOf m) m.body
        = Except.ok (some body) →
      ns.receive_message client clock peer_id (PeerMessage.Routed m) was_requested
        = Except.ok (some (PeerMessage.Routed
            { target := PeerIdOrHash.hash (hashOf m), author := ns.node_id, body := body,
              ttl := ns.routed_message_ttl, createdAt := some clock.utc,
              signedWith := ns.node_key })))
    ∧ (ns.receive_routed_message client clock peer_id (hashOf m) m.body = Except.ok none →
        ns.receive_message client clock peer_id (PeerMessage.Routed m) was_requested
          = Except.ok none) := by
  constructor
  · intro body hb
    simp [NetworkState.receive_message, hb, Except.map, NetworkState.sign_message]
  · intro hb
    simp [NetworkState.receive_message, hb, Except.map]

/-- C8 witness: a concrete tx-status request is answered by a routed reply
targeted at the request hash. -/
theorem c8_witness :
    c8ns.receive_message c8client { utc := 0, inst := 0 } 2 (PeerMessage.Routed c8m) false
      = Except.ok (some (PeerMessage.Routed
          { target := PeerIdOrHash.hash (hashOf c8m), author := 0,
            body := RoutedMessageBody.txStatusResponse 5, ttl := 20,
            createdAt := some 0, signedWith := 7 })) :=
  (c8_routed_reply_wrapping c8ns c8client { utc := 0, inst := 0 } 2 c8m false).1
    (RoutedMessageBody.txStatusResponse 5) rfl

/-! C2: characterization of the unreachability-pruning step. -/

/-- eraseA_of_lookupA_none shows erasing an absent key is the identity. -/
theorem eraseA_of_lookupA_none {α β : Type} [DecidableEq α] (l : List (α × β)) (k : α)
    (h : lookupA l k = none) : eraseA l k = l := by
  induction l with
  | nil => rfl
  | cons kv t ih =>
    rw [lookupA_cons] at h
    by_cases hk : kv.1 = k
    · simp [hk] at h
    · rw [eraseA_cons, if_neg hk, ih (by simpa [hk] using h)]

/-- remove_edge_edges computes the edge map of Inner::remove_edge. -/
theorem remove_edge_edges (i : RoutingInner) (k : EdgeKey) :
    (i.remove_edge k).edges = eraseA i.edges k := by
  rw [RoutingInner.remove_edge]
  cases h : lookupA i.edges k with
  | some e => rfl
  | none => exact (eraseA_of_lookupA_none i.edges k h).symm

/-- remove_edge_fields shows Inner::remove_edge only touches the edge map
and the graph. -/
theorem remove_edge_fields (i : RoutingInner) (k : EdgeKey) :
    (i.remove_edge k).config = i.config
    ∧ (i.remove_edge k).peer_reachable_at = i.peer_reachable_at
    ∧ (i.remove_edge k).store = i.store
    ∧ (i.remove_edge k).last_time_peers_pruned = i.last_time_peers_pruned := by
  rw [RoutingInner.remove_edge]
  cases h : lookupA i.edges k <;> exact ⟨rfl, rfl, rfl, rfl⟩

/-- lookupA_filter_excluded shows a lookup in a filtered list fails when the
predicate rejects every entry of that key. -/
theorem lookupA_filter_excluded {α β : Type} [DecidableEq α] (l : List (α × β))
    (q : α × β → Bool) (k : α) (h : ∀ kv : α × β, kv.1 = k → q kv = false) :
    lookupA (l.filter q) k = none := by
  induction l with
  | nil => rfl
  | cons kv t ih =>
    rw [List.filter_cons]
    by_cases hq : q kv = true
    · rw [if_pos hq, lookupA_cons]
      have hk : kv.1 ≠ k := fun hk => by rw [h kv hk] at hq; cases hq
      rw [if_neg hk]
      exact ih
    · rw [if_neg (by simpa using hq)]
      exact ih

/-- raeStep is the step function of the remove_adjacent_edges fold. -/
def raeStep (peers : List PeerId) :
    RoutingInner × List Edge → EdgeKey × Edge → RoutingInner × List Edge :=
  fun acc ke =>
    if edgeIncident ke.1 peers then (acc.1.remove_edge ke.1, acc.2 ++ [ke.2]) else acc

/-- rae_as_foldl restates remove_adjacent_edges through raeStep. -/
theorem rae_as_foldl (i : RoutingInner) (peers : List PeerId) :
    i.remove_adjacent_edges peers = i.edges.foldl (raeStep peers) (i, []) := rfl

/-- rae_foldl_fields shows the fold only touches the edge map and graph. -/
theorem rae_foldl_fields (peers : List PeerId) (l : List (EdgeKey × Edge)) :
    ∀ (s : RoutingInner) (acc : List Edge),
    (l.foldl (raeStep peers) (s, acc)).1.config = s.config
    ∧ (l.foldl (raeStep peers) (s, acc)).1.peer_reachable_at = s.peer_reachable_at
    ∧ (l.foldl (raeStep peers) (s, acc)).1.store = s.store
    ∧ (l.foldl (raeStep peers) (s, acc)).1.last_time_peers_pruned
        = s.last_time_peers_pruned := by
  induction l with
  | nil => intro s acc; exact ⟨rfl, rfl, rfl, rfl⟩
  | cons ke t ih =>
    intro s acc
    rw [List.foldl_cons, raeStep]
    by_cases hinc : edgeIncident ke.1 peers
    · rw [if_pos hinc]
      have h1 := ih (s.remove_edge ke.1) (acc ++ [ke.2])
      have h2 := remove_edge_fields s ke.1
      exact ⟨h1.1.trans h2.1, h1.2.1.trans h2.2.1, h1.2.2.1.trans h2.2.2.1,
        h1.2.2.2.trans h2.2.2.2⟩
    · rw [if_neg hinc]
      exact ih s acc

/-- rae_foldl_edges computes the edge map left by the fold: when every
incident stored entry still has its key in the fold list, exactly the
non-incident entries remain. -/
theorem rae_foldl_edges (peers : List PeerId) (l : List (EdgeKey × Edge)) :
    ∀ (s : RoutingInner) (acc : List Edge),
    (∀ ke ∈ s.edges, edgeIncident ke.1 peers = true → ke.1 ∈ l.map Prod.fst) →
    (l.foldl (raeStep peers) (s, acc)).1.edges
      = s.edges.filter (fun ke => !(edgeIncident ke.1 peers)) := by
  induction l with
  | nil =>
    intro s acc hpre
    rw [List.foldl_nil]
    refine (List.filter_eq_self.mpr ?_).symm
    intro ke hke
    cases hinc : edgeIncident ke.1 peers with
    | true => cases hpre ke hke hinc
    | false => rfl
  | cons ke t ih =>
    intro s acc hpre
    rw [List.foldl_cons, raeStep]
    by_cases hinc : edgeIncident ke.1 peers
    · rw [if_pos hinc]
      have hs' : (s.remove_edge ke.1).edges = eraseA s.edges ke.1 :=
        remove_edge_edges s ke.1
      have hpre' : ∀ ke' ∈ (s.remove_edge ke.1).edges,
          edgeIncident ke'.1 peers = true → ke'.1 ∈ t.map Prod.fst := by
        intro ke' hke' hinc'
        rw [hs', eraseA] at hke'
        have hmem := List.mem_filter.mp hke'
        have hne : ke'.1 ≠ ke.1 := by simpa using hmem.2
        have := hpre ke' hmem.1 hinc'
        rw [List.map_cons] at this
        rcases List.mem_cons.mp this with h | h
        · exact absurd h hne
        · exact h
      rw [ih (s.remove_edge ke.1) (acc ++ [ke.2]) hpre', hs', eraseA,
        List.filter_filter]
      apply List.filter_congr
      intro x hx
      cases hx2 : edgeIncident x.1 peers with
      | true => simp [hx2]
      | false =>
        have hne : x.1 ≠ ke.1 := by
          intro hk
          rw [hk, hinc] at hx2
          cases hx2
        simp [hx2, hne]
    · rw [if_neg hinc]
      apply ih s acc
      intro ke' hke' hinc'
      have := hpre ke' hke' hinc'
      rw [List.map_cons] at this
      rcases List.mem_cons.mp this with h | h
      · rw [h] at hinc'
        rw [hinc'] at hinc
        exact absurd rfl hinc
      · exact h

/-- rae_foldl_removed collects exactly the incident entries, in order. -/
theorem rae_foldl_removed (peers : List PeerId) (l : List (EdgeKey × Edge)) :
    ∀ (s : RoutingInner) (acc : List Edge),
    (l.foldl (raeStep peers) (s, acc)).2
      = acc ++ (l.filter (fun ke => edgeIncident ke.1 peers)).map Prod.snd := by
  induction l with
  | nil => intro s acc; simp
  | cons ke t ih =>
    intro s acc
    rw [List.foldl_cons, raeStep, List.filter_cons]
    by_cases hinc : edgeIncident ke.1 peers
    · rw [if_pos hinc, if_pos (by simpa using hinc), ih, List.map_cons]
      simp
    · rw [if_neg hinc, if_neg (by simpa using hinc), ih]

/-- remove_edge_preserves_adjP shows Inner::remove_edge preserves the
property that every pair in the BFS adjacency has a stored edge. -/
theorem remove_edge_preserves_adjP (s : RoutingInner) (k0 : EdgeKey)
    (h : ∀ k ∈ s.graph.adj, lookupA s.edges k ≠ none) :
    ∀ k ∈ (s.remove_edge k0).graph.adj, lookupA (s.remove_edge k0).edges k ≠ none := by
  intro k hk
  rw [RoutingInner.remove_edge] at hk ⊢
  cases hl : lookupA s.edges k0 with
  | none =>
    rw [hl] at hk
    exact h k hk
  | some e =>
    rw [hl] at hk
    have hk' : k ∈ s.graph.adj.filter (fun kv => kv ≠ (k0.1, k0.2)) := hk
    have hmem := List.mem_filter.mp hk'
    have hne : k ≠ k0 := by
      have := hmem.2
      simp only [ne_eq, decide_not, Bool.not_eq_true', decide_eq_false_iff_not] at this
      simpa using this
    show lookupA (eraseA s.edges k0) k ≠ none
    rw [lookupA_eraseA_ne s.edges k0 k hne]
    exact h k hmem.1

/-- rae_foldl_adj shows the fold preserves the property that every pair in
the BFS adjacency has a stored edge. -/
theorem rae_foldl_adj (peers : List PeerId) (l : List (EdgeKey × Edge)) :
    ∀ (s : RoutingInner) (acc : List Edge),
    (∀ k ∈ s.graph.adj, lookupA s.edges k ≠ none) →
    (∀ k ∈ (l.foldl (raeStep peers) (s, acc)).1.graph.adj,
      lookupA (l.foldl (raeStep peers) (s, acc)).1.edges k ≠ none) := by
  induction l with
  | nil => intro s acc h; exact h
  | cons ke t ih =>
    intro s acc h
    rw [List.foldl_cons, raeStep]
    by_cases hinc : edgeIncident ke.1 peers
    · rw [if_pos hinc]
      exact ih (s.remove_edge ke.1) (acc ++ [ke.2]) (remove_edge_preserves_adjP s ke.1 h)
    · rw [if_neg hinc]
      exact ih s acc h

/-- prune_unreachable_peers_spec characterizes Inner::prune_unreachable_peers:
stale edge-endpoint peers lose their reachability entries, their incident
edges disappear from the edge map and the BFS graph, and peers and edges
are archived through push_component when any stale peer exists. -/
theorem prune_unreachable_peers_spec (i : RoutingInner) (since : Int)
    (hadj : ∀ k ∈ i.graph.adj, lookupA i.edges k ≠ none) :
    (∀ p ∈ staleKeyPeers i since,
      lookupA (i.prune_unreachable_peers since).peer_reachable_at p = none)
    ∧ (i.prune_unreachable_peers since).edges
        = i.edges.filter (fun ke => !(edgeIncident ke.1 (staleKeyPeers i since)))
    ∧ (∀ k, edgeIncident k (staleKeyPeers i since) = true →
        k ∉ (i.prune_unreachable_peers since).graph.adj)
    ∧ (staleKeyPeers i since ≠ [] →
        (i.prune_unreachable_peers since).store
          = i.store.push_component (staleKeyPeers i since)
              ((i.edges.filter (fun ke => edgeIncident ke.1 (staleKeyPeers i since))).map
                Prod.snd)) := by
  by_cases hemp : staleKeyPeers i since = []
  · rw [RoutingInner.prune_unreachable_peers]
    simp only [hemp, List.isEmpty_nil, if_true]
    refine ⟨?_, ?_, ?_, ?_⟩
    · intro p hp
      cases hp
    · refine (List.filter_eq_self.mpr ?_).symm
      intro ke _
      simp [edgeIncident]
    · intro k hk
      simp [edgeIncident] at hk
    · intro h
      exact absurd rfl h
  · have hne : (staleKeyPeers i since).isEmpty = false := by
      cases hl : staleKeyPeers i since with
      | nil => cases hemp hl
      | cons a t => rfl
    rw [RoutingInner.prune_unreachable_peers]
    simp only [hne, Bool.false_eq_true, if_false]
    set peers := staleKeyPeers i since with hpeers
    set i1 : RoutingInner :=
      { i with peer_reachable_at := peers.foldl eraseA i.peer_reachable_at } with hi1
    have hflds := rae_foldl_fields peers i1.edges i1 []
    have hedges := rae_foldl_edges peers i1.edges i1 []
      (fun ke hke _ => List.mem_map_of_mem Prod.fst hke)
    have hremoved := rae_foldl_removed peers i1.edges i1 []
    have hadj1 := rae_foldl_adj peers i1.edges i1 [] hadj
    rw [rae_as_foldl]
    refine ⟨?_, ?_, ?_, ?_⟩
    · intro p hp
      show lookupA (i1.edges.foldl (raeStep peers) (i1, [])).1.peer_reachable_at p = none
      rw [hflds.2.1]
      exact lookupA_foldl_eraseA_of_mem peers i.peer_reachable_at p hp
    · exact hedges
    · intro k hk
      intro hmem
      have hnone : lookupA (i1.edges.foldl (raeStep peers) (i1, [])).1.edges k = none := by
        rw [hedges]
        apply lookupA_filter_excluded
        intro kv hkv
        rw [hkv, hk]
        rfl
      exact hadj1 k hmem hnone
    · intro _
      show (i1.edges.foldl (raeStep peers) (i1, [])).1.store.push_component peers
          (i1.edges.foldl (raeStep peers) (i1, [])).2
        = i.store.push_component peers
            ((i.edges.filter (fun ke => edgeIncident ke.1 peers)).map Prod.snd)
      rw [hflds.2.2.1, hremoved]
      rfl

/-- C2 (amended): whenever the unreachability-pruning step of Inner::update
runs (the last_time_peers_pruned throttle passes), every peer that is an
endpoint of a stored edge and whose peer_reachable_at entry is absent or
older than now minus prune_unreachable_peers_after is removed from
peer_reachable_at, all edges incident to such peers are removed from both
the edge map and the BFS graph, and when at least one such peer exists the
peers and removed edges are archived via store.push_component.  (A stale
peer with no incident stored edge is not removed.)  The mid state is the
intermediate state of update just before the pruning step. -/
theorem c2_prune_step_characterization (i mid : RoutingInner) (clock : Clock)
    (edges : List Edge) (unreliable : List PeerId)
    (hmid : (i.prePrune clock edges unreliable).1 = mid)
    (hthrottle : throttleCond mid.last_time_peers_pruned clock.inst
        mid.config.prune_unreachable_peers_after = true)
    (hadj : ∀ k ∈ mid.graph.adj, lookupA mid.edges k ≠ none) :
    (∀ p ∈ staleKeyPeers mid (clock.inst - mid.config.prune_unreachable_peers_after),
      lookupA ((i.update clock edges unreliable).2).peer_reachable_at p = none)
    ∧ ((i.update clock edges unreliable).2).edges
        = mid.edges.filter (fun ke => !(edgeIncident ke.1
            (staleKeyPeers mid (clock.inst - mid.config.prune_unreachable_peers_after))))
    ∧ (∀ k, edgeIncident k
          (staleKeyPeers mid (clock.inst - mid.config.prune_unreachable_peers_after)) = true →
        k ∉ ((i.update clock edges unreliable).2).graph.adj)
    ∧ (staleKeyPeers mid (clock.inst - mid.config.prune_unreachable_peers_after) ≠ [] →
        ((i.update clock edges unreliable).2).store
          = mid.store.push_component
              (staleKeyPeers mid (clock.inst - mid.config.prune_unreachable_peers_after))
              ((mid.edges.filter (fun ke => edgeIncident ke.1
                (staleKeyPeers mid
                  (clock.inst - mid.config.prune_unreachable_peers_after)))).map
                Prod.snd)) := by
  have hupd : (i.update clock edges unreliable).2
      = { mid.prune_unreachable_peers
            (clock.inst - mid.config.prune_unreachable_peers_after) with
          last_time_peers_pruned := some clock.inst } := by
    rw [RoutingInner.update]
    simp only [hmid, hthrottle, if_true]
  have hspec := prune_unreachable_peers_spec mid
    (clock.inst - mid.config.prune_unreachable_peers_after) hadj
  rw [hupd]
  exact hspec

/-- C2 witness: with one stored edge between unreachable peers 1 and 2 and
a passing throttle, the pruning step drops peer 1 from peer_reachable_at. -/
theorem c2_witness :
    lookupA ((c2wi.update { utc := 0, inst := 0 } [] []).2).peer_reachable_at 1 = none := by
  have h := (c2_prune_step_characterization c2wi
    ((c2wi.prePrune { utc := 0, inst := 0 } [] []).1) { utc := 0, inst := 0 } [] []
    rfl (by decide) (by decide)).1 1 (by decide)
  exact h

/-- C2 counterexample: in the third update of the concrete run the pruning
step runs (the throttle passes) and peer 1's peer_reachable_at entry is
older than now minus prune_unreachable_peers_after, yet peer 1 is not
removed from peer_reachable_at, because it has no incident stored edge. -/
theorem c2_counterexample :
    throttleCond ((c2run2.2.prePrune { utc := 160, inst := 160 } [] []).1).last_time_peers_pruned
        160 ((c2run2.2.prePrune { utc := 160, inst := 160 }
          [] []).1).config.prune_unreachable_peers_after = true
    ∧ lookupA ((c2run2.2.prePrune { utc := 160, inst := 160 }
        [] []).1).peer_reachable_at 1 = some 0
    ∧ ((0 : Int) < 160 - 100)
    ∧ lookupA c2run3.2.peer_reachable_at 1 = some 0 := by decide

/-! C6: inserting the same edge twice.  The BFS evaluation lemmas compute
bfsFrom and calculate_distance on the empty and the one-edge graph. -/

/-- eraseA_nil computes eraseA on the empty list. -/
theorem eraseA_nil {α β : Type} [DecidableEq α] (k : α) :
    eraseA ([] : List (α × β)) k = [] := rfl

/-- bfsFrom_nil computes the BFS table of the empty graph. -/
theorem bfsFrom_nil (self : PeerId) : bfsFrom [] self = [(self, 0)] := by
  rw [bfsFrom]; norm_num; simp [bfsAux, neighborsOf, lookupA]

/-- bfsFrom_notinc computes the BFS table when the only edge misses the
source. -/
theorem bfsFrom_notinc (self a b : PeerId) (ha : a ≠ self) (hb : b ≠ self) :
    bfsFrom [(a, b)] self = [(self, 0)] := by
  rw [bfsFrom]; norm_num; simp [bfsAux, neighborsOf, lookupA, ha, hb]

/-- bfsFrom_fst_src computes the BFS table from the first endpoint. -/
theorem bfsFrom_fst_src (self o : PeerId) (ho : o ≠ self) :
    bfsFrom [(self, o)] self = [(self, 0), (o, 1)] := by
  have hs : self ≠ o := fun h => ho h.symm
  rw [bfsFrom]; norm_num; simp [bfsAux, neighborsOf, lookupA, ho, hs]

/-- bfsFrom_fst_other computes the BFS table from the second endpoint. -/
theorem bfsFrom_fst_other (self o : PeerId) (ho : o ≠ self) :
    bfsFrom [(self, o)] o = [(o, 0), (self, 1)] := by
  have hs : self ≠ o := fun h => ho h.symm
  rw [bfsFrom]; norm_num; simp [bfsAux, neighborsOf, lookupA, ho, hs]

/-- bfsFrom_snd_src is bfsFrom_fst_src with the edge key flipped. -/
theorem bfsFrom_snd_src (self o : PeerId) (ho : o ≠ self) :
    bfsFrom [(o, self)] self = [(self, 0), (o, 1)] := by
  have hs : self ≠ o := fun h => ho h.symm
  rw [bfsFrom]; norm_num; simp [bfsAux, neighborsOf, lookupA, ho, hs]

/-- bfsFrom_snd_other is bfsFrom_fst_other with the edge key flipped. -/
theorem bfsFrom_snd_other (self o : PeerId) (ho : o ≠ self) :
    bfsFrom [(o, self)] o = [(o, 0), (self, 1)] := by
  have hs : self ≠ o := fun h => ho h.symm
  rw [bfsFrom]; norm_num; simp [bfsAux, neighborsOf, lookupA, ho, hs]

/-- calcd_nil computes the next-hop table of the empty graph. -/
theorem calcd_nil (self : PeerId) (u : List PeerId) :
    (BfsGraph.mk self []).calculate_distance u = [] := by
  simp [BfsGraph.calculate_distance, bfsFrom_nil, neighborsOf]

/-- calcd_notinc computes the next-hop table when the only edge misses this
node. -/
theorem calcd_notinc (self a b : PeerId) (u : List PeerId) (ha : a ≠ self)
    (hb : b ≠ self) : (BfsGraph.mk self [(a, b)]).calculate_distance u = [] := by
  simp [BfsGraph.calculate_distance, bfsFrom_notinc self a b ha hb, neighborsOf, ha, hb]

/-- calcd_fst computes the next-hop table of a single edge out of this node. -/
theorem calcd_fst (self o : PeerId) (ho : o ≠ self) :
    (BfsGraph.mk self [(self, o)]).calculate_distance [] = [(o, [o])] := by
  have hs : self ≠ o := fun h => ho h.symm
  simp [BfsGraph.calculate_distance, bfsFrom_fst_src self o ho,
    bfsFrom_fst_other self o ho, neighborsOf, ho, hs, lookupA_cons]

/-- calcd_snd is calcd_fst with the edge key flipped. -/
theorem calcd_snd (self o : PeerId) (ho : o ≠ self) :
    (BfsGraph.mk self [(o, self)]).calculate_distance [] = [(o, [o])] := by
  have hs : self ≠ o := fun h => ho h.symm
  simp [BfsGraph.calculate_distance, bfsFrom_snd_src self o ho,
    bfsFrom_snd_other self o ho, neighborsOf, ho, hs, lookupA_cons]

/-- c6_run1_notinc evaluates the first update of a single edge between two
peers different from this node: the edge is accepted and archived by the
unreachability pruning. -/
theorem c6_run1_notinc (cfg : GraphConfig) (e : Edge) (c1 : Clock)
    (ha : e.peer0 ≠ cfg.node_id) (hb : e.peer1 ≠ cfg.node_id) (hab : e.peer0 ≠ e.peer1)
    (hw1 : ∀ d, cfg.prune_edges_after = some d →
      e.is_edge_older_than (c1.utc - d) = false) :
    (initialInner cfg emptyStore).update c1 [e] []
      = (([e], { edges := [], local_edges := [], next_hops := [] }),
          c6stateN cfg e c1.inst) := by
  have ha' : cfg.node_id ≠ e.peer0 := fun h => ha h.symm
  have hb' : cfg.node_id ≠ e.peer1 := fun h => hb h.symm
  cases hc : cfg.prune_edges_after with
  | none =>
    cases he : e.edge_type with
    | Active =>
      simp [RoutingInner.update, RoutingInner.prePrune, RoutingInner.loadPhase,
        RoutingInner.mergePhase, RoutingInner.load_component, RoutingInner.update_edge,
        RoutingInner.insertEdgeRaw, RoutingInner.prune_old_edges, RoutingInner.remove_edge,
        RoutingInner.remove_adjacent_edges, RoutingInner.prune_unreachable_peers,
        staleKeyPeers, throttleCond, hasEdge, Store.pop_component, Store.push_component,
        BfsGraph.add_edge, BfsGraph.remove_edge, initialInner, emptyStore, c6stateN,
        insertA, eraseA_nil, eraseA_cons, lookupA_cons, lookupA_nil, edgeIncident,
        Edge.key, Edge.other, he, hc, ha, hb, hab, ha', hb',
        calcd_notinc cfg.node_id e.peer0 e.peer1 [] ha hb]
    | Removed =>
      simp [RoutingInner.update, RoutingInner.prePrune, RoutingInner.loadPhase,
        RoutingInner.mergePhase, RoutingInner.load_component, RoutingInner.update_edge,
        RoutingInner.insertEdgeRaw, RoutingInner.prune_old_edges, RoutingInner.remove_edge,
        RoutingInner.remove_adjacent_edges, RoutingInner.prune_unreachable_peers,
        staleKeyPeers, throttleCond, hasEdge, Store.pop_component, Store.push_component,
        BfsGraph.add_edge, BfsGraph.remove_edge, initialInner, emptyStore, c6stateN,
        insertA, eraseA_nil, eraseA_cons, lookupA_cons, lookupA_nil, edgeIncident,
        Edge.key, Edge.other, he, hc, ha, hb, hab, ha', hb', calcd_nil]
  | some d =>
    have hwd := hw1 d hc
    cases he : e.edge_type with
    | Active =>
      simp [RoutingInner.update, RoutingInner.prePrune, RoutingInner.loadPhase,
        RoutingInner.mergePhase, RoutingInner.load_component, RoutingInner.update_edge,
        RoutingInner.insertEdgeRaw, RoutingInner.prune_old_edges, RoutingInner.remove_edge,
        RoutingInner.remove_adjacent_edges, RoutingInner.prune_unreachable_peers,
        staleKeyPeers, throttleCond, hasEdge, Store.pop_component, Store.push_component,
        BfsGraph.add_edge, BfsGraph.remove_edge, initialInner, emptyStore, c6stateN,
        insertA, eraseA_nil, eraseA_cons, lookupA_cons, lookupA_nil, edgeIncident,
        Edge.key, Edge.other, he, hc, hwd, ha, hb, hab, ha', hb',
        calcd_notinc cfg.node_id e.peer0 e.peer1 [] ha hb]
    | Removed =>
      simp [RoutingInner.update, RoutingInner.prePrune, RoutingInner.loadPhase,
        RoutingInner.mergePhase, RoutingInner.load_component, RoutingInner.update_edge,
        RoutingInner.insertEdgeRaw, RoutingInner.prune_old_edges, RoutingInner.remove_edge,
        RoutingInner.remove_adjacent_edges, RoutingInner.prune_unreachable_peers,
        staleKeyPeers, throttleCond, hasEdge, Store.pop_component, Store.push_component,
        BfsGraph.add_edge, BfsGraph.remove_edge, initialInner, emptyStore, c6stateN,
        insertA, eraseA_nil, eraseA_cons, lookupA_cons, lookupA_nil, edgeIncident,
        Edge.key, Edge.other, he, hc, hwd, ha, hb, hab, ha', hb', calcd_nil]

/-- c6_run2_notinc evaluates the second update of the same edge: the
archived component is reloaded, so the incoming copy is rejected. -/
theorem c6_run2_notinc (cfg : GraphConfig) (e : Edge) (c2 : Clock) (t : Int)
    (ha : e.peer0 ≠ cfg.node_id) (hb : e.peer1 ≠ cfg.node_id) (hab : e.peer0 ≠ e.peer1)
    (hw2 : ∀ d, cfg.prune_edges_after = some d →
      e.is_edge_older_than (c2.utc - d) = false) :
    ((c6stateN cfg e t).update c2 [e] []).1.1 = [] := by
  have ha' : cfg.node_id ≠ e.peer0 := fun h => ha h.symm
  have hb' : cfg.node_id ≠ e.peer1 := fun h => hb h.symm
  have hab' : e.peer1 ≠ e.peer0 := fun h => hab h.symm
  cases hc : cfg.prune_edges_after with
  | none =>
    cases he : e.edge_type with
    | Active =>
      simp [RoutingInner.update, RoutingInner.prePrune, RoutingInner.loadPhase,
        RoutingInner.mergePhase, RoutingInner.load_component, RoutingInner.update_edge,
        RoutingInner.insertEdgeRaw, hasEdge, Store.pop_component,
        BfsGraph.add_edge, BfsGraph.remove_edge, c6stateN,
        insertA, eraseA_nil, eraseA_cons, lookupA_cons, lookupA_nil,
        Edge.key, he, hc, ha, hb, hab, ha', hb', hab']
    | Removed =>
      simp [RoutingInner.update, RoutingInner.prePrune, RoutingInner.loadPhase,
        RoutingInner.mergePhase, RoutingInner.load_component, RoutingInner.update_edge,
        RoutingInner.insertEdgeRaw, hasEdge, Store.pop_component,
        BfsGraph.add_edge, BfsGraph.remove_edge, c6stateN,
        insertA, eraseA_nil, eraseA_cons, lookupA_cons, lookupA_nil,
        Edge.key, he, hc, ha, hb, hab, ha', hb', hab']
  | some d =>
    have hwd := hw2 d hc
    cases he : e.edge_type with
    | Active =>
      simp [RoutingInner.update, RoutingInner.prePrune, RoutingInner.loadPhase,
        RoutingInner.mergePhase, RoutingInner.load_component, RoutingInner.update_edge,
        RoutingInner.insertEdgeRaw, hasEdge, Store.pop_component,
        BfsGraph.add_edge, BfsGraph.remove_edge, c6stateN,
        insertA, eraseA_nil, eraseA_cons, lookupA_cons, lookupA_nil,
        Edge.key, he, hc, hwd, ha, hb, hab, ha', hb', hab']
    | Removed =>
      simp [RoutingInner.update, RoutingInner.prePrune, RoutingInner.loadPhase,
        RoutingInner.mergePhase, RoutingInner.load_component, RoutingInner.update_edge,
        RoutingInner.insertEdgeRaw, hasEdge, Store.pop_component,
        BfsGraph.add_edge, BfsGraph.remove_edge, c6stateN,
        insertA, eraseA_nil, eraseA_cons, lookupA_cons, lookupA_nil,
        Edge.key, he, hc, hwd, ha, hb, hab, ha', hb', hab']

/-- c6_run1_fst_active evaluates the first update of a single active edge
whose first endpoint is this node: the edge is accepted and kept, and the
other endpoint becomes reachable. -/
theorem c6_run1_fst_active (cfg : GraphConfig) (e : Edge) (c1 : Clock)
    (hself : e.peer0 = cfg.node_id) (hb : e.peer1 ≠ cfg.node_id)
    (he : e.edge_type = EdgeState.Active)
    (hU : 0 < cfg.prune_unreachable_peers_after)
    (hw1 : ∀ d, cfg.prune_edges_after = some d →
      e.is_edge_older_than (c1.utc - d) = false) :
    (initialInner cfg emptyStore).update c1 [e] []
      = (([e],
          { edges := [((e.peer0, e.peer1), e)], local_edges := [(e.peer1, e)],
            next_hops := [(e.peer1, [e.peer1])] }), c6stateA cfg e e.peer1 c1.inst) := by
  have hb' : cfg.node_id ≠ e.peer1 := fun h => hb h.symm
  have hUc : ¬ (c1.inst < c1.inst - cfg.prune_unreachable_peers_after) := by linarith
  cases hc : cfg.prune_edges_after with
  | none =>
    simp [RoutingInner.update, RoutingInner.prePrune, RoutingInner.loadPhase,
      RoutingInner.mergePhase, RoutingInner.load_component, RoutingInner.update_edge,
      RoutingInner.insertEdgeRaw, RoutingInner.prune_old_edges,
      RoutingInner.prune_unreachable_peers, staleKeyPeers, throttleCond, hasEdge,
      Store.pop_component, BfsGraph.add_edge, initialInner, emptyStore, c6stateA,
      insertA, eraseA_nil, eraseA_cons, lookupA_cons, lookupA_nil,
      Edge.key, Edge.other, he, hc, hself, hb, hb', hUc,
      calcd_fst cfg.node_id e.peer1 hb]
  | some d =>
    have hwd := hw1 d hc
    simp [RoutingInner.update, RoutingInner.prePrune, RoutingInner.loadPhase,
      RoutingInner.mergePhase, RoutingInner.load_component, RoutingInner.update_edge,
      RoutingInner.insertEdgeRaw, RoutingInner.prune_old_edges,
      RoutingInner.prune_unreachable_peers, staleKeyPeers, throttleCond, hasEdge,
      Store.pop_component, BfsGraph.add_edge, initialInner, emptyStore, c6stateA,
      insertA, eraseA_nil, eraseA_cons, lookupA_cons, lookupA_nil,
      Edge.key, Edge.other, he, hc, hwd, hself, hb, hb', hUc,
      calcd_fst cfg.node_id e.peer1 hb]

/-- c6_run1_snd_active is c6_run1_fst_active with this node as the second
endpoint. -/
theorem c6_run1_snd_active (cfg : GraphConfig) (e : Edge) (c1 : Clock)
    (hself : e.peer1 = cfg.node_id) (ha : e.peer0 ≠ cfg.node_id)
    (he : e.edge_type = EdgeState.Active)
    (hU : 0 < cfg.prune_unreachable_peers_after)
    (hw1 : ∀ d, cfg.prune_edges_after = some d →
      e.is_edge_older_than (c1.utc - d) = false) :
    (initialInner cfg emptyStore).update c1 [e] []
      = (([e],
          { edges := [((e.peer0, e.peer1), e)], local_edges := [(e.peer0, e)],
            next_hops := [(e.peer0, [e.peer0])] }), c6stateA cfg e e.peer0 c1.inst) := by
  have ha' : cfg.node_id ≠ e.peer0 := fun h => ha h.symm
  have hUc : ¬ (c1.inst < c1.inst - cfg.prune_unreachable_peers_after) := by linarith
  cases hc : cfg.prune_edges_after with
  | none =>
    simp [RoutingInner.update, RoutingInner.prePrune, RoutingInner.loadPhase,
      RoutingInner.mergePhase, RoutingInner.load_component, RoutingInner.update_edge,
      RoutingInner.insertEdgeRaw, RoutingInner.prune_old_edges,
      RoutingInner.prune_unreachable_peers, staleKeyPeers, throttleCond, hasEdge,
      Store.pop_component, BfsGraph.add_edge, initialInner, emptyStore, c6stateA,
      insertA, eraseA_nil, eraseA_cons, lookupA_cons, lookupA_nil,
      Edge.key, Edge.other, he, hc, hself, ha, ha', hUc,
      calcd_snd cfg.node_id e.peer0 ha]
  | some d =>
    have hwd := hw1 d hc
    simp [RoutingInner.update, RoutingInner.prePrune, RoutingInner.loadPhase,
      RoutingInner.mergePhase, RoutingInner.load_component, RoutingInner.update_edge,
      RoutingInner.insertEdgeRaw, RoutingInner.prune_old_edges,
      RoutingInner.prune_unreachable_peers, staleKeyPeers, throttleCond, hasEdge,
      Store.pop_component, BfsGraph.add_edge, initialInner, emptyStore, c6stateA,
      insertA, eraseA_nil, eraseA_cons, lookupA_cons, lookupA_nil,
      Edge.key, Edge.other, he, hc, hwd, hself, ha, ha', hUc,
      calcd_snd cfg.node_id e.peer0 ha]

/-- c6_run1_fst_removed evaluates the first update of a single
removed-state edge whose first endpoint is this node: the edge is accepted
and then archived, because the other endpoint is unreachable. -/
theorem c6_run1_fst_removed (cfg : GraphConfig) (e : Edge) (c1 : Clock)
    (hself : e.peer0 = cfg.node_id) (hb : e.peer1 ≠ cfg.node_id)
    (he : e.edge_type = EdgeState.Removed)
    (hU : 0 < cfg.prune_unreachable_peers_after)
    (hw1 : ∀ d, cfg.prune_edges_after = some d →
      e.is_edge_older_than (c1.utc - d) = false) :
    (initialInner cfg emptyStore).update c1 [e] []
      = (([e], { edges := [], local_edges := [], next_hops := [] }),
          c6stateR cfg e e.peer1 c1.inst) := by
  have hb' : cfg.node_id ≠ e.peer1 := fun h => hb h.symm
  have hUc : ¬ (c1.inst < c1.inst - cfg.prune_unreachable_peers_after) := by linarith
  cases hc : cfg.prune_edges_after with
  | none =>
    simp [RoutingInner.update, RoutingInner.prePrune, RoutingInner.loadPhase,
      RoutingInner.mergePhase, RoutingInner.load_component, RoutingInner.update_edge,
      RoutingInner.insertEdgeRaw, RoutingInner.prune_old_edges, RoutingInner.remove_edge,
      RoutingInner.remove_adjacent_edges, RoutingInner.prune_unreachable_peers,
      staleKeyPeers, throttleCond, hasEdge, Store.pop_component, Store.push_component,
      BfsGraph.remove_edge, initialInner, emptyStore, c6stateR, edgeIncident,
      insertA, eraseA_nil, eraseA_cons, lookupA_cons, lookupA_nil,
      Edge.key, Edge.other, he, hc, hself, hb, hb', hUc, calcd_nil]
  | some d =>
    have hwd := hw1 d hc
    simp [RoutingInner.update, RoutingInner.prePrune, RoutingInner.loadPhase,
      RoutingInner.mergePhase, RoutingInner.load_component, RoutingInner.update_edge,
      RoutingInner.insertEdgeRaw, RoutingInner.prune_old_edges, RoutingInner.remove_edge,
      RoutingInner.remove_adjacent_edges, RoutingInner.prune_unreachable_peers,
      staleKeyPeers, throttleCond, hasEdge, Store.pop_component, Store.push_component,
      BfsGraph.remove_edge, initialInner, emptyStore, c6stateR, edgeIncident,
      insertA, eraseA_nil, eraseA_cons, lookupA_cons, lookupA_nil,
      Edge.key, Edge.other, he, hc, hwd, hself, hb, hb', hUc, calcd_nil]

/-- c6_run1_snd_removed is c6_run1_fst_removed with this node as the second
endpoint. -/
theorem c6_run1_snd_removed (cfg : GraphConfig) (e : Edge) (c1 : Clock)
    (hself : e.peer1 = cfg.node_id) (ha : e.peer0 ≠ cfg.node_id)
    (he : e.edge_type = EdgeState.Removed)
    (hU : 0 < cfg.prune_unreachable_peers_after)
    (hw1 : ∀ d, cfg.prune_edges_after = some d →
      e.is_edge_older_than (c1.utc - d) = false) :
    (initialInner cfg emptyStore).update c1 [e] []
      = (([e], { edges := [], local_edges := [], next_hops := [] }),
          c6stateR cfg e e.peer0 c1.inst) := by
  have ha' : cfg.node_id ≠ e.peer0 := fun h => ha h.symm
  have hUc : ¬ (c1.inst < c1.inst - cfg.prune_unreachable_peers_after) := by linarith
  cases hc : cfg.prune_edges_after with
  | none =>
    simp [RoutingInner.update, RoutingInner.prePrune, RoutingInner.loadPhase,
      RoutingInner.mergePhase, RoutingInner.load_component, RoutingInner.update_edge,
      RoutingInner.insertEdgeRaw, RoutingInner.prune_old_edges, RoutingInner.remove_edge,
      RoutingInner.remove_adjacent_edges, RoutingInner.prune_unreachable_peers,
      staleKeyPeers, throttleCond, hasEdge, Store.pop_component, Store.push_component,
      BfsGraph.remove_edge, initialInner, emptyStore, c6stateR, edgeIncident,
      insertA, eraseA_nil, eraseA_cons, lookupA_cons, lookupA_nil,
      Edge.key, Edge.other, he, hc, hself, ha, ha', hUc, calcd_nil]
  | some d =>
    have hwd := hw1 d hc
    simp [RoutingInner.update, RoutingInner.prePrune, RoutingInner.loadPhase,
      RoutingInner.mergePhase, RoutingInner.load_component, RoutingInner.update_edge,
      RoutingInner.insertEdgeRaw, RoutingInner.prune_old_edges, RoutingInner.remove_edge,
      RoutingInner.remove_adjacent_edges, RoutingInner.prune_unreachable_peers,
      staleKeyPeers, throttleCond, hasEdge, Store.pop_component, Store.push_component,
      BfsGraph.remove_edge, initialInner, emptyStore, c6stateR, edgeIncident,
      insertA, eraseA_nil, eraseA_cons, lookupA_cons, lookupA_nil,
      Edge.key, Edge.other, he, hc, hwd, hself, ha, ha', hUc, calcd_nil]

/-- c6_run2_fst_active evaluates the second update of the same active edge:
the stored copy rejects the incoming one. -/
theorem c6_run2_fst_active (cfg : GraphConfig) (e : Edge) (c2 : Clock) (t : Int)
    (hself : e.peer0 = cfg.node_id) (hb : e.peer1 ≠ cfg.node_id) :
    ((c6stateA cfg e e.peer1 t).update c2 [e] []).1.1 = [] := by
  have hb' : cfg.node_id ≠ e.peer1 := fun h => hb h.symm
  simp [RoutingInner.update, RoutingInner.prePrune, RoutingInner.loadPhase,
    RoutingInner.mergePhase, RoutingInner.load_component, RoutingInner.update_edge,
    hasEdge, c6stateA, lookupA_cons, lookupA_nil, Edge.key, hself, hb, hb']

/-- c6_run2_snd_active is c6_run2_fst_active with this node as the second
endpoint. -/
theorem c6_run2_snd_active (cfg : GraphConfig) (e : Edge) (c2 : Clock) (t : Int)
    (hself : e.peer1 = cfg.node_id) (ha : e.peer0 ≠ cfg.node_id) :
    ((c6stateA cfg e e.peer0 t).update c2 [e] []).1.1 = [] := by
  have ha' : cfg.node_id ≠ e.peer0 := fun h => ha h.symm
  simp [RoutingInner.update, RoutingInner.prePrune, RoutingInner.loadPhase,
    RoutingInner.mergePhase, RoutingInner.load_component, RoutingInner.update_edge,
    hasEdge, c6stateA, lookupA_cons, lookupA_nil, Edge.key, hself, ha, ha']

/-- c6_run2_fst_removed evaluates the second update of the same
removed-state edge: the archived component is reloaded and the incoming
copy is rejected. -/
theorem c6_run2_fst_removed (cfg : GraphConfig) (e : Edge) (c2 : Clock) (t : Int)
    (hself : e.peer0 = cfg.node_id) (hb : e.peer1 ≠ cfg.node_id)
    (hw2 : ∀ d, cfg.prune_edges_after = some d →
      e.is_edge_older_than (c2.utc - d) = false) :
    ((c6stateR cfg e e.peer1 t).update c2 [e] []).1.1 = [] := by
  have hb' : cfg.node_id ≠ e.peer1 := fun h => hb h.symm
  cases hc : cfg.prune_edges_after with
  | none =>
    cases he : e.edge_type with
    | Active =>
      simp [RoutingInner.update, RoutingInner.prePrune, RoutingInner.loadPhase,
        RoutingInner.mergePhase, RoutingInner.load_component, RoutingInner.update_edge,
        RoutingInner.insertEdgeRaw, hasEdge, Store.pop_component,
        BfsGraph.add_edge, BfsGraph.remove_edge, c6stateR,
        insertA, eraseA_nil, eraseA_cons, lookupA_cons, lookupA_nil,
        Edge.key, he, hc, hself, hb, hb']
    | Removed =>
      simp [RoutingInner.update, RoutingInner.prePrune, RoutingInner.loadPhase,
        RoutingInner.mergePhase, RoutingInner.load_component, RoutingInner.update_edge,
        RoutingInner.insertEdgeRaw, hasEdge, Store.pop_component,
        BfsGraph.add_edge, BfsGraph.remove_edge, c6stateR,
        insertA, eraseA_nil, eraseA_cons, lookupA_cons, lookupA_nil,
        Edge.key, he, hc, hself, hb, hb']
  | some d =>
    have hwd := hw2 d hc
    cases he : e.edge_type with
    | Active =>
      simp [RoutingInner.update, RoutingInner.prePrune, RoutingInner.loadPhase,
        RoutingInner.mergePhase, RoutingInner.load_component, RoutingInner.update_edge,
        RoutingInner.insertEdgeRaw, hasEdge, Store.pop_component,
        BfsGraph.add_edge, BfsGraph.remove_edge, c6stateR,
        insertA, eraseA_nil, eraseA_cons, lookupA_cons, lookupA_nil,
        Edge.key, he, hc, hwd, hself, hb, hb']
    | Removed =>
      simp [RoutingInner.update, RoutingInner.prePrune, RoutingInner.loadPhase,
        RoutingInner.mergePhase, RoutingInner.load_component, RoutingInner.update_edge,
        RoutingInner.insertEdgeRaw, hasEdge, Store.pop_component,
        BfsGraph.add_edge, BfsGraph.remove_edge, c6stateR,
        insertA, eraseA_nil, eraseA_cons, lookupA_cons, lookupA_nil,
        Edge.key, he, hc, hwd, hself, hb, hb']

/-- c6_run2_snd_removed is c6_run2_fst_removed with this node as the second
endpoint. -/
theorem c6_run2_snd_removed (cfg : GraphConfig) (e : Edge) (c2 : Clock) (t : Int)
    (hself : e.peer1 = cfg.node_id) (ha : e.peer0 ≠ cfg.node_id)
    (hw2 : ∀ d, cfg.prune_edges_after = some d →
      e.is_edge_older_than (c2.utc - d) = false) :
    ((c6stateR cfg e e.peer0 t).update c2 [e] []).1.1 = [] := by
  have ha' : cfg.node_id ≠ e.peer0 := fun h => ha h.symm
  cases hc : cfg.prune_edges_after with
  | none =>
    cases he : e.edge_type with
    | Active =>
      simp [RoutingInner.update, RoutingInner.prePrune, RoutingInner.loadPhase,
        RoutingInner.mergePhase, RoutingInner.load_component, RoutingInner.update_edge,
        RoutingInner.insertEdgeRaw, hasEdge, Store.pop_component,
        BfsGraph.add_edge, BfsGraph.remove_edge, c6stateR,
        insertA, eraseA_nil, eraseA_cons, lookupA_cons, lookupA_nil,
        Edge.key, he, hc, hself, ha, ha']
    | Removed =>
      simp [RoutingInner.update, RoutingInner.prePrune, RoutingInner.loadPhase,
        RoutingInner.mergePhase, RoutingInner.load_component, RoutingInner.update_edge,
        RoutingInner.insertEdgeRaw, hasEdge, Store.pop_component,
        BfsGraph.add_edge, BfsGraph.remove_edge, c6stateR,
        insertA, eraseA_nil, eraseA_cons, lookupA_cons, lookupA_nil,
        Edge.key, he, hc, hself, ha, ha']
  | some d =>
    have hwd := hw2 d hc
    cases he : e.edge_type with
    | Active =>
      simp [RoutingInner.update, RoutingInner.prePrune, RoutingInner.loadPhase,
        RoutingInner.mergePhase, RoutingInner.load_component, RoutingInner.update_edge,
        RoutingInner.insertEdgeRaw, hasEdge, Store.pop_component,
        BfsGraph.add_edge, BfsGraph.remove_edge, c6stateR,
        insertA, eraseA_nil, eraseA_cons, lookupA_cons, lookupA_nil,
        Edge.key, he, hc, hwd, hself, ha, ha']
    | Removed =>
      simp [RoutingInner.update, RoutingInner.prePrune, RoutingInner.loadPhase,
        RoutingInner.mergePhase, RoutingInner.load_component, RoutingInner.update_edge,
        RoutingInner.insertEdgeRaw, hasEdge, Store.pop_component,
        BfsGraph.add_edge, BfsGraph.remove_edge, c6stateR,
        insertA, eraseA_nil, eraseA_cons, lookupA_cons, lookupA_nil,
        Edge.key, he, hc, hwd, hself, ha, ha']

/-- C6: starting from the empty engine state with an empty archive, updating
twice with the same single edge (canonical key, positive unreachability
window, timestamps within the edge-age prune window at both calls) returns
new_edges = [edge] on the first call and the empty list on the second. -/
theorem c6_insert_twice (cfg : GraphConfig) (e : Edge) (c1 c2 : Clock)
    (hab : e.peer0 < e.peer1)
    (hU : 0 < cfg.prune_unreachable_peers_after)
    (hw1 : ∀ d, cfg.prune_edges_after = some d →
      e.is_edge_older_than (c1.utc - d) = false)
    (hw2 : ∀ d, cfg.prune_edges_after = some d →
      e.is_edge_older_than (c2.utc - d) = false) :
    ((initialInner cfg emptyStore).update c1 [e] []).1.1 = [e]
    ∧ ((((initialInner cfg emptyStore).update c1 [e] []).2).update c2 [e] []).1.1 = [] := by
  have hne : e.peer0 ≠ e.peer1 := Nat.ne_of_lt hab
  by_cases h1 : e.peer0 = cfg.node_id
  · have hb : e.peer1 ≠ cfg.node_id := fun h => hne (h1.trans h.symm)
    cases he : e.edge_type with
    | Active =>
      rw [c6_run1_fst_active cfg e c1 h1 hb he hU hw1]
      exact ⟨rfl, c6_run2_fst_active cfg e c2 c1.inst h1 hb⟩
    | Removed =>
      rw [c6_run1_fst_removed cfg e c1 h1 hb he hU hw1]
      exact ⟨rfl, c6_run2_fst_removed cfg e c2 c1.inst h1 hb hw2⟩
  · by_cases h2 : e.peer1 = cfg.node_id
    · have ha : e.peer0 ≠ cfg.node_id := h1
      cases he : e.edge_type with
      | Active =>
        rw [c6_run1_snd_active cfg e c1 h2 ha he hU hw1]
        exact ⟨rfl, c6_run2_snd_active cfg e c2 c1.inst h2 ha⟩
      | Removed =>
        rw [c6_run1_snd_removed cfg e c1 h2 ha he hU hw1]
        exact ⟨rfl, c6_run2_snd_removed cfg e c2 c1.inst h2 ha hw2⟩
    · rw [c6_run1_notinc cfg e c1 h1 h2 hne hw1]
      exact ⟨rfl, c6_run2_notinc cfg e c2 c1.inst h1 h2 hne hw2⟩

/-- C6 witness: a concrete double insertion of the edge (1,2) with nonce 1
accepts the edge once and rejects the repeat. -/
theorem c6_witness :
    ((initialInner c6wcfg emptyStore).update { utc := 0, inst := 0 }
        [mkEdge 1 2 1 0] []).1.1 = [mkEdge 1 2 1 0]
    ∧ ((((initialInner c6wcfg emptyStore).update { utc := 0, inst := 0 }
        [mkEdge 1 2 1 0] []).2).update { utc := 0, inst := 0 }
        [mkEdge 1 2 1 0] []).1.1 = [] :=
  c6_insert_twice c6wcfg (mkEdge 1 2 1 0) { utc := 0, inst := 0 } { utc := 0, inst := 0 }
    (by decide) (by decide)
    (by intro d hd; simp [c6wcfg] at hd; subst hd; decide)
    (by intro d hd; simp [c6wcfg] at hd; subst hd; decide)
